import Mathlib

/-!
# Verification of the simple-server routing and binding layer

A shallow embedding, in Lean 4, of the core logic of the `server` package:
the route table (`setHandler` / `getRoute`), the routing decision of
`routingHandler`, the middleware chain composers
(`constructHandlerBeforeRouting` / `constructHandlerAfterRouting`), the
panic-isolation wrapper (`recoverHandler`), the request binder (`Bind`) and
the type-coercion engine (`setStrToStructField`).

The embedding follows the current revision of the package (the one the
repository's own test-suite `bind_test.go` / `server_test.go` exercises):
the binder with `form` support, presence-based query/form extraction, and
the `strconv`-based coercion engine covering all native integer widths.

External collaborators (the Go standard library) are modelled from their
documented semantics where the package calls into them:
`strings.Split` / `strings.TrimSuffix` / `strings.HasPrefix`,
`strconv.ParseInt` / `ParseUint` / `Atoi` / `ParseBool`,
`net/http.Request.ParseForm` (reads and drains the body of a
POST/PUT/PATCH form request), and `encoding/json.Unmarshal` of the request
body (kept abstract as an oracle parameter, since its behaviour on a given
target type is external to this package; the package only classifies its
errors).  Floating-point coercion targets and user-supplied custom
decoders are outside the embedding: no claim below concerns them.

Handlers and middleware are modelled as functions from a request to an
`Outcome`: the ordered list of observable events (response writes, log
lines, and - for the instrumented middleware used in the theorems -
call markers), together with an optional pending panic.
-/

namespace SimpleServer

/-! ## Go string primitives (modelled from the Go standard library) -/

/-- Go `strings.HasPrefix s pre` (on the character level; the strings the
package manipulates make the byte/char distinction immaterial). -/
def goStartsWith (s pre : String) : Bool :=
  pre.data.isPrefixOf s.data

/-- Go `strings.HasSuffix s suffix`. -/
def goHasSuffix (s suffix : String) : Bool :=
  suffix.data.isSuffixOf s.data

/-- Go `strings.TrimSuffix s suffix`: `s[:len(s)-len(suffix)]` when
`HasSuffix s suffix`, else `s` unchanged. -/
def goTrimSuffix (s suffix : String) : String :=
  if goHasSuffix s suffix then ⟨s.data.take (s.data.length - suffix.data.length)⟩
  else s

/-- Splitting a character list on every occurrence of `sep`. -/
def splitChar (sep : Char) : List Char → List (List Char)
  | [] => [[]]
  | c :: cs =>
    if c = sep then [] :: splitChar sep cs
    else
      match splitChar sep cs with
      | [] => [[c]]
      | h :: t => (c :: h) :: t

/-- Go `strings.Split s sep` for a one-character separator (the package
only ever splits on `"/"` and `":"`): `Split("/items/", "/") =
["", "items", ""]`, `Split("", "/") = [""]`. -/
def goSplit (s : String) (sep : Char) : List String :=
  (splitChar sep s.data).map fun l => ⟨l⟩

/-- The part of a character list before the first `sep`, and — when `sep`
occurs — the part after it (Go `strings.Cut`). -/
def cutChar (sep : Char) : List Char → List Char × Option (List Char)
  | [] => ([], none)
  | c :: cs =>
    if c = sep then ([], some cs)
    else
      let r := cutChar sep cs
      (c :: r.1, r.2)

theorem goTrimSuffix_empty (s : String) : goTrimSuffix s "" = s := by
  obtain ⟨l⟩ := s
  simp only [goTrimSuffix, goHasSuffix]
  have h : ([] : List Char).isSuffixOf l = true := by
    simp [List.isSuffixOf]
  simp [h, String.length, List.take_length]

/-! ## Responses, events and handler outcomes -/

/-- One response emission: `SetResponse(w, r, contentType, statusCode, data)`. -/
structure Write where
  contentType : String
  statusCode : Int
  body : String
deriving DecidableEq, Repr

/-- Observable events of a request's handling, in order. -/
inductive Event where
  /-- a response write performed through `SetResponse` -/
  | wrote (w : Write)
  /-- an instrumented middleware ran (used by the theorems to observe order) -/
  | mwCalled (label : String)
  /-- an instrumented route handler ran -/
  | handlerCalled (label : String)
  /-- a log line (`l.Error` in `recoverHandler`; the stack trace itself is
  runtime data and not part of the embedding) -/
  | logged (msg : String)
deriving DecidableEq, Repr

/-- Result of running a handler chain on a request: the events it emitted,
plus `some msg` when it ended in a (not yet recovered) panic. -/
structure Outcome where
  events : List Event
  panicMsg : Option String
deriving DecidableEq, Repr

def consEvent (e : Event) (o : Outcome) : Outcome :=
  { o with events := e :: o.events }

def prependEvents (l : List Event) (o : Outcome) : Outcome :=
  { o with events := l ++ o.events }

/-- The response writes among a list of events, in order. -/
def writesOf (l : List Event) : List Write :=
  l.filterMap fun e => match e with
    | .wrote w => some w
    | _ => none

/-! ## Requests -/

/-- An in-flight HTTP request, with the parts of `*http.Request` the
package reads.  `query` is the parsed form of `r.URL.Query()` (Go
`url.Values`: name to non-empty list of values; a parameter present with
an empty value, as in `?q=`, is `("q", [""])`).  `body` is the remaining
readable content of `r.Body` (`none` models a nil body).  `ctxPathParam`
is the `pathParamTable` stored in the request context under the key
`"pathParam"`, or `none` when absent. -/
structure Request where
  method : String
  path : String
  query : List (String × List String)
  contentType : String
  body : Option String
  ctxPathParam : Option (List (String × String))
deriving DecidableEq, Repr

/-- `IoReaderToString`: drains the reader; a nil reader yields `""`. -/
def ioReaderToString (body : Option String) : String :=
  match body with
  | none => ""
  | some s => s

abbrev GoHandler := Request → Outcome
abbrev GoMiddleware := GoHandler → GoHandler

/-! ## The route table -/

/-- The `route` struct: handler, the (at most one, trailing) path
parameter's name, and the per-route middleware. -/
structure Route where
  handler : GoHandler
  pathParamName : String
  middleware : List GoMiddleware

/-- The global `router` map `map[string]route`, keyed by
`method ++ " " ++ path`; modelled as an association list (keys are unique
because `setHandler` refuses duplicates). -/
abbrev RouterTable := List (String × Route)

/-- `getRoute(path, method)`: `router[method+" "+path]`. -/
def getRoute (router : RouterTable) (path method : String) : Option Route :=
  router.lookup (method ++ " " ++ path)

/-- `PanicSameRoot = "there already route %s exists"` applied to the path. -/
def panicSameRoot (path : String) : String :=
  "there already route " ++ path ++ " exists"

/-- `setHandler(path, hr, method, middleware...)`.  Registration panics
(modelled by `Except.error`) on a duplicate `(method, template)` key. -/
def setHandler (router : RouterTable) (path0 : String) (hr : GoHandler)
    (method : String) (middleware : List GoMiddleware) :
    Except String RouterTable :=
  let paths := goSplit path0 ':'
  let path := if paths.length > 1 then paths.headD "" ++ ":" else path0
  let pathParamName := if paths.length > 1 then paths.getLastD "" else ""
  if (getRoute router path method).isSome then
    .error (panicSameRoot path)
  else
    .ok ((method ++ " " ++ path, ⟨hr, pathParamName, middleware⟩) :: router)

/-- The normalized key a registration of `path0` under `method` would use
in the router map (the same computation `setHandler` performs). -/
def normalizedKey (method path0 : String) : String :=
  let paths := goSplit path0 ':'
  let path := if paths.length > 1 then paths.headD "" ++ ":" else path0
  method ++ " " ++ path

/-! ## Route resolution (the decision logic of `routingHandler`) -/

/-- What `routingHandler` decides for a request before invoking the
after-routing chain. -/
inductive ResolveResult where
  /-- the parameterized-template probe hit: the final path segment becomes
  the parameter's value -/
  | paramMatch (ru : Route) (table : List (String × String))
  /-- the exact-path lookup hit -/
  | exactMatch (ru : Route)
  /-- neither lookup hit: "no method" -/
  | noRoute
  /-- the matched route had an empty `pathParamName` (registration
  invariant violated): `panic("path parameter name is empty")` -/
  | panicked (msg : String)

/-- The exact-path lookup at the bottom of `routingHandler`. -/
def resolveExact (router : RouterTable) (method path : String) : ResolveResult :=
  match getRoute router path method with
  | some ru => .exactMatch ru
  | none => .noRoute

/-- The routing decision of `routingHandler`: split the path on `"/"`; with
more than two segments, probe `TrimSuffix(path, lastSegment) ++ ":"` first
and bind the last segment as the parameter's value on a hit; otherwise
fall through to the exact lookup. -/
def resolve (router : RouterTable) (method path : String) : ResolveResult :=
  let splitPath := goSplit path '/'
  if splitPath.length > 2 then
    let pathParamCandidate := splitPath.getLastD ""
    match getRoute router (goTrimSuffix path pathParamCandidate ++ ":") method with
    | some ru =>
      if ru.pathParamName = "" then .panicked "path parameter name is empty"
      else .paramMatch ru [(ru.pathParamName, pathParamCandidate)]
    | none => resolveExact router method path
  else resolveExact router method path

/-- Projection: the path-parameter table of a `paramMatch`, else `none`. -/
def ResolveResult.paramTable : ResolveResult → Option (List (String × String))
  | .paramMatch _ table => some table
  | _ => none

/-- Projection: did resolution report "no route"? -/
def ResolveResult.isNoRoute : ResolveResult → Bool
  | .noRoute => true
  | _ => false

/-! ## The composed dispatch chain -/

/-- The package-level configuration (the `var` block of the server file):
the router, the two global middleware tiers, and the configurable "no
method" / internal-server-error responses. -/
structure Config where
  router : RouterTable
  commonMiddleware : List GoMiddleware
  commonAfterMiddleware : List GoMiddleware
  noMethodResponse : String
  noMethodContentType : String
  internalServerErrorResponse : String
  internalServerErrorContentType : String

/-- Default `noMethodResponse` / `noMethodContentType` values. -/
def defaultNoMethodResponse : String := "\x7b\"message\":\"no method\"\x7d"

def defaultInternalServerErrorResponse : String :=
  "\x7b\"message\":\"internal server error\"\x7d"

def contentTypeJSON : String := "application/json"

/-- `constructHandlerAfterRouting(idx, ru)`: per-route middleware
(`ru.middleware`, from `idx`), then `commonAfterMiddleware`, then
`ru.handler`.  Indices compare as Go `int`s (`idx <= len-1`). -/
def constructHandlerAfterRouting (cfg : Config) (idx : Nat) (ru : Route) :
    GoHandler :=
  if h1 : (idx : Int) ≤ (ru.middleware.length : Int) - 1 then
    (ru.middleware.get ⟨idx, by omega⟩)
      (constructHandlerAfterRouting cfg (idx + 1) ru)
  else
    if h2 : (idx : Int) - (ru.middleware.length : Int) ≤
        (cfg.commonAfterMiddleware.length : Int) - 1 then
      (cfg.commonAfterMiddleware.get ⟨idx - ru.middleware.length, by omega⟩)
        (constructHandlerAfterRouting cfg (idx + 1) ru)
    else
      ru.handler
termination_by ru.middleware.length + cfg.commonAfterMiddleware.length - idx
decreasing_by
  all_goals omega

/-- `routingHandler`: the routing decision of `resolve`, then — on a param
match — the request is re-equipped with the `pathParam` context value and
the after-routing chain runs; on "no route" the configured response is
written; a matched route with an empty parameter name panics. -/
def routingHandler (cfg : Config) : GoHandler := fun r =>
  match resolve cfg.router r.method r.path with
  | .paramMatch ru table =>
    constructHandlerAfterRouting cfg 0 ru { r with ctxPathParam := some table }
  | .exactMatch ru =>
    constructHandlerAfterRouting cfg 0 ru r
  | .noRoute =>
    ⟨[.wrote ⟨cfg.noMethodContentType, 404, cfg.noMethodResponse⟩], none⟩
  | .panicked msg =>
    ⟨[], some msg⟩

/-- `constructHandlerBeforeRouting(idx)`: each `commonMiddleware` from
`idx` on, then `routingHandler`. -/
def constructHandlerBeforeRouting (cfg : Config) (middleWareIdx : Nat) :
    GoHandler :=
  if h : (middleWareIdx : Int) ≤ (cfg.commonMiddleware.length : Int) - 1 then
    (cfg.commonMiddleware.get ⟨middleWareIdx, by omega⟩)
      (constructHandlerBeforeRouting cfg (middleWareIdx + 1))
  else
    routingHandler cfg
termination_by cfg.commonMiddleware.length - middleWareIdx
decreasing_by
  all_goals omega

/-- `recoverHandler`: runs the whole composed chain under the single
deferred `recover()`.  A panic anywhere in the chain is intercepted: the
diagnostic is logged (`l.Error`) and the configured internal-server-error
response is written; a normal completion passes through untouched. -/
def recoverHandler (cfg : Config) : GoHandler := fun r =>
  let o := constructHandlerBeforeRouting cfg 0 r
  match o.panicMsg with
  | none => o
  | some m =>
    ⟨o.events ++
      [.logged ("panic(server recovered): " ++ m),
       .wrote ⟨cfg.internalServerErrorContentType, 500,
         cfg.internalServerErrorResponse⟩],
     none⟩

/-! ## Instrumented middleware and handlers

Concrete `GoMiddleware` / `GoHandler` values used by the theorems to
observe execution order: an emitting middleware records its label and
passes through; a panicking one raises; an emitting handler records its
label; a panicking handler raises. -/

def emitMW (label : String) : GoMiddleware := fun next r =>
  consEvent (.mwCalled label) (next r)

def panicMW (msg : String) : GoMiddleware := fun _ _ =>
  ⟨[], some msg⟩

def emitHandler (label : String) : GoHandler := fun _ =>
  ⟨[.handlerCalled label], none⟩

def panicHandler (msg : String) : GoHandler := fun _ =>
  ⟨[], some msg⟩

/-! ## The error taxonomy

Go errors relevant to the binder, as a closed inductive: the package's own
wrapper types (with their `Unwrap` methods), the standard-library errors
the package inspects (`*json.SyntaxError`, `*json.UnmarshalTypeError`,
`*strconv.NumError`), plain `errors.New` errors, generic `%w` wrappers,
and opaque external errors (e.g. a custom decoder's failure). -/

inductive NumErrKind where
  /-- `strconv.ErrSyntax` -/
  | errSyntaxKind
  /-- `strconv.ErrRange` -/
  | errRangeKind
deriving DecidableEq, Repr

inductive GoError where
  /-- `errors.New(msg)` -/
  | simpleError (msg : String)
  /-- `*json.SyntaxError` -/
  | jsonSyntaxError (msg : String)
  /-- `*json.UnmarshalTypeError` (with its `Field`) -/
  | jsonUnmarshalTypeError (field : String)
  /-- `*strconv.NumError` (`Func`, `Num`, wrapped `ErrSyntax`/`ErrRange`) -/
  | numError (fn : String) (num : String) (kind : NumErrKind)
  /-- `*ErrBind` -/
  | errBind (e : GoError)
  /-- `*ErrRequestJsonSomethingInvalid` -/
  | errRequestJsonSomethingInvalid (json : String) (e : GoError)
  /-- `*ErrRequestJsonSyntaxError` -/
  | errRequestJsonSyntaxError (json : String) (e : GoError)
  /-- `*ErrRequestFieldFormat` -/
  | errRequestFieldFormat (field : String) (e : GoError)
  /-- `*ErrRequestFormParse` -/
  | errRequestFormParse (e : GoError)
  /-- a generic `fmt.Errorf("...%w...")`-style wrapper around another error -/
  | wrapped (msg : String) (e : GoError)
  /-- an external error that wraps nothing (e.g. a custom decoder's error) -/
  | otherLeafError (tag : String)
deriving DecidableEq, Repr

/-- The `Unwrap` step of Go's error-chain protocol: each of the package's
wrapper types returns its `Err` field; `%w` wrappers unwrap; leaf errors
have no `Unwrap`. -/
def goUnwrap : GoError → Option GoError
  | .errBind e => some e
  | .errRequestJsonSomethingInvalid _ e => some e
  | .errRequestJsonSyntaxError _ e => some e
  | .errRequestFieldFormat _ e => some e
  | .errRequestFormParse e => some e
  | .wrapped _ e => some e
  | _ => none

/-- The unwrap chain of an error, starting at the error itself: exactly
the errors `errors.As` / `errors.Is` inspect. -/
def errorChain : GoError → List GoError
  | .errBind e => .errBind e :: errorChain e
  | .errRequestJsonSomethingInvalid j e =>
    .errRequestJsonSomethingInvalid j e :: errorChain e
  | .errRequestJsonSyntaxError j e =>
    .errRequestJsonSyntaxError j e :: errorChain e
  | .errRequestFieldFormat f e => .errRequestFieldFormat f e :: errorChain e
  | .errRequestFormParse e => .errRequestFormParse e :: errorChain e
  | .wrapped m e => .wrapped m e :: errorChain e
  | e => [e]

/-- `errors.As(err, &jsonUnmarshalErrSyntaxErr)`: does the chain contain a
`*json.SyntaxError`? -/
def chainHasJsonSyntaxError (e : GoError) : Bool :=
  (errorChain e).any fun x => match x with
    | .jsonSyntaxError _ => true
    | _ => false

/-- `errors.As(err, &jsonUnmarshalErrTypeErr)` followed by reading
`jsonUnmarshalErrTypeErr.Field`: the `Field` of the first
`*json.UnmarshalTypeError` in the chain, if any. -/
def chainTypeErrorField (e : GoError) : Option String :=
  (errorChain e).findSome? fun x => match x with
    | .jsonUnmarshalTypeError f => some f
    | _ => none

/-- `wrapByErrBind`. -/
def wrapByErrBind (e : GoError) : GoError := .errBind e

/-! ## The `strconv` models (modelled from the Go standard library)

Base-10 only (the package always passes base 10), with the exact bit-size
the package passes.  On failure Go returns a `*strconv.NumError` carrying
the function name, the input, and `ErrSyntax`/`ErrRange`; the value
returned alongside a non-nil error is discarded by the package, so only
the error is modelled on failure. -/

/-- One step of the left-to-right base-10 accumulation: a non-digit
poisons the accumulator. -/
def decDigitStep (acc : Option Nat) (c : Char) : Option Nat :=
  match acc with
  | none => none
  | some n => if c.isDigit then some (n * 10 + (c.toNat - 48)) else none

/-- The numeric value of a non-empty all-decimal-digit character list
(`none` for an empty list or any non-digit). -/
def decDigitsVal : List Char → Option Nat
  | [] => none
  | cs => cs.foldl decDigitStep (some 0)

/-- `strconv.ParseUint(s, 10, bitSize)`: digits only (no sign), value must
fit in `bitSize` bits. -/
def goParseUint (s : String) (bitSize : Nat) : Except GoError Nat :=
  match decDigitsVal s.data with
  | none => .error (.numError "ParseUint" s .errSyntaxKind)
  | some n =>
    if n < 2 ^ bitSize then .ok n
    else .error (.numError "ParseUint" s .errRangeKind)

/-- The signed decimal value of a character list: an optional single
leading `+`/`-` sign, then a non-empty digit run. -/
def goSignedDecVal : List Char → Option Int
  | [] => none
  | '+' :: cs => (decDigitsVal cs).map (fun n => (n : Int))
  | '-' :: cs => (decDigitsVal cs).map (fun n => -(n : Int))
  | cs => (decDigitsVal cs).map (fun n => (n : Int))

/-- `strconv.ParseInt(s, 10, bitSize)` (with `fn` the reported function
name, `"ParseInt"` or — via `Atoi` — `"Atoi"`): optional `+`/`-` sign,
then digits; value must lie in `[-2^(bitSize-1), 2^(bitSize-1) - 1]`. -/
def goParseIntF (fn : String) (s : String) (bitSize : Nat) :
    Except GoError Int :=
  match goSignedDecVal s.data with
  | none => .error (.numError fn s .errSyntaxKind)
  | some v =>
    if -(2 ^ (bitSize - 1) : Int) ≤ v ∧ v < (2 ^ (bitSize - 1) : Int) then .ok v
    else .error (.numError fn s .errRangeKind)

/-- `strconv.Atoi(s)` = `ParseInt(s, 10, 0)` with the platform `int` width
(64 bits); its errors report `Func = "Atoi"`. -/
def goAtoi (s : String) : Except GoError Int :=
  goParseIntF "Atoi" s 64

/-- `strconv.ParseBool`. -/
def goParseBool (s : String) : Except GoError Bool :=
  if s = "1" ∨ s = "t" ∨ s = "T" ∨ s = "TRUE" ∨ s = "true" ∨ s = "True" then
    .ok true
  else if s = "0" ∨ s = "f" ∨ s = "F" ∨ s = "FALSE" ∨ s = "false" ∨ s = "False" then
    .ok false
  else
    .error (.numError "ParseBool" s .errSyntaxKind)

/-! ## Field types, values and slots

The built-in target types of the coercion engine's type switch (`byte` and
`rune` are Go aliases of `uint8` / `int32`).  Floating-point targets and
the `encoding.TextUnmarshaler` / `json.Unmarshaler` extension cases are
outside the embedding: no claim concerns them. -/

inductive BaseTy where
  | str | int | uint | bool
  | int8 | int16 | int32 | int64
  | uint8 | uint16 | uint32 | uint64
deriving DecidableEq, Repr

/-- A field's declared type: a base type, possibly behind one level of
pointer indirection. -/
structure FType where
  base : BaseTy
  isPtr : Bool
deriving DecidableEq, Repr

/-- A typed Go value as stored by the engine (integer widths are enforced
by the parse-time range checks, so values carry exact integers). -/
inductive GoVal where
  | vstr (s : String)
  | vint (n : Int)
  | vuint (n : Nat)
  | vbool (b : Bool)
deriving DecidableEq, Repr

/-- The state of one struct field slot: the zero value of a pointer type
(`nil`), or a stored value — directly for a value-typed field
(`rv.Set(reflect.ValueOf(vv))`), behind an allocated pointer for a
pointer-typed field (`rv.Set(reflect.ValueOf(&vv))`). -/
inductive FSlot where
  | nilPtr
  | direct (v : GoVal)
  | pointer (v : GoVal)
deriving DecidableEq, Repr

/-- The zero value of a field of type `t` (what an untouched struct field
holds). -/
def zeroSlot (t : FType) : FSlot :=
  if t.isPtr then .nilPtr
  else
    .direct (match t.base with
      | .str => .vstr ""
      | .int | .int8 | .int16 | .int32 | .int64 => .vint 0
      | .uint | .uint8 | .uint16 | .uint32 | .uint64 => .vuint 0
      | .bool => .vbool false)

/-- The `if rv.Kind() == reflect.Ptr { rv.Set(&vv) } else { rv.Set(vv) }`
step shared by every case of the type switch. -/
def storeVal (t : FType) (v : GoVal) : FSlot :=
  if t.isPtr then .pointer v else .direct v

/-- The underlying value a slot holds (through the pointer, if any). -/
def FSlot.stored : FSlot → Option GoVal
  | .nilPtr => none
  | .direct v => some v
  | .pointer v => some v

/-- `setStrToStructField(rv, str)`: the coercion engine.  The type switch
is on the pointer to the slot (`rva`), so one case covers the value type
and its pointer type; a string slot receives the raw token verbatim;
numeric and boolean slots go through `strconv` with base 10 and the exact
bit width (`uint`/`int` use the 64-bit platform width); a parse failure is
returned as-is.  (The `CanSet` precondition always holds here: the
embedding only applies the engine to addressable struct fields.) -/
def setStrToStructField (t : FType) (str : String) : Except GoError FSlot :=
  match t.base with
  | .str => .ok (storeVal t (.vstr str))
  | .uint => (goParseUint str 64).map (fun v => storeVal t (.vuint v))
  | .int => (goAtoi str).map (fun v => storeVal t (.vint v))
  | .bool => (goParseBool str).map (fun v => storeVal t (.vbool v))
  | .int8 => (goParseIntF "ParseInt" str 8).map (fun v => storeVal t (.vint v))
  | .int16 => (goParseIntF "ParseInt" str 16).map (fun v => storeVal t (.vint v))
  | .int32 => (goParseIntF "ParseInt" str 32).map (fun v => storeVal t (.vint v))
  | .int64 => (goParseIntF "ParseInt" str 64).map (fun v => storeVal t (.vint v))
  | .uint8 => (goParseUint str 8).map (fun v => storeVal t (.vuint v))
  | .uint16 => (goParseUint str 16).map (fun v => storeVal t (.vuint v))
  | .uint32 => (goParseUint str 32).map (fun v => storeVal t (.vuint v))
  | .uint64 => (goParseUint str 64).map (fun v => storeVal t (.vuint v))

/-! ## The request binder -/

/-- One field of a bindable struct: the four recognized tags (`""` models
an absent tag, as Go's `Tag.Get` returns) and the field's type. -/
structure FieldDesc where
  jsonTag : String
  paramTag : String
  queryTag : String
  formTag : String
  ftype : FType
deriving DecidableEq, Repr

/-- `isFormRequest(r)`. -/
def isFormRequest (r : Request) : Bool :=
  goStartsWith r.contentType "application/x-www-form-urlencoded"

/-- `getPathParamVal(r, pathParamName)`: panics (`Except.error`) when the
`pathParam` context value was never installed; otherwise a map access,
yielding `""` for a missing key. -/
def getPathParamVal (r : Request) (pathParamName : String) :
    Except String String :=
  match r.ctxPathParam with
  | none => .error "pathParam "
  | some table => .ok ((table.lookup pathParamName).getD "")

/-- Modelled from the Go standard library: `url.ParseQuery` for bodies
without percent-escapes, plus signs or semicolons (none of the claims
depends on escape decoding; inputs using them are rejected rather than
mis-modelled). -/
def goParseQuery (s : String) : Except GoError (List (String × List String)) :=
  if s.data.any (fun c => c = '%' ∨ c = '+' ∨ c = ';') then
    .error (.simpleError "goParseQuery: escape decoding not modelled")
  else
    .ok ((splitChar '&' s.data).filterMap fun kv =>
      if kv = [] then none
      else
        let cut := cutChar '=' kv
        some ((⟨cut.1⟩ : String), [(⟨(cut.2).getD []⟩ : String)]))

/-- Modelled from the Go standard library: `http.Request.ParseForm`.  For
`POST`/`PUT`/`PATCH` it reads (and thereby drains) the request body and
parses it as a URL-encoded form; for other methods the body is not
touched.  In both cases the URL query is merged in after the body values.
Returns the populated `r.Form` and the request with its post-`ParseForm`
body state. -/
def goParseForm (r : Request) :
    Except GoError (List (String × List String)) × Request :=
  if r.method = "POST" ∨ r.method = "PUT" ∨ r.method = "PATCH" then
    let bodyStr := ioReaderToString r.body
    let drained := { r with body := some "" }
    match goParseQuery bodyStr with
    | .error e => (.error e, drained)
    | .ok postForm =>
      (.ok (postForm ++ r.query.filter fun kv => (postForm.lookup kv.1).isNone),
       drained)
  else
    (.ok r.query, r)

/-- Outcome of `Bind`: normal return (`nil` or a non-nil error) or a
panic; each carries the request as left behind (its body may have been
re-buffered or, for forms, drained). -/
inductive BindResult where
  | ok (slots : List FSlot) (r : Request)
  | err (e : GoError) (r : Request)
  | panicked (msg : String) (r : Request)
deriving Repr, DecidableEq

/-- Source selection for one non-`json` field, by tag precedence
`param` → `query` → `form`: the extracted raw value (`none` when the
source is absent — or, for a path parameter, empty) together with the
external field name, or the panic message (`Sum.inl`) the loop raises for
a configuration fault. -/
def selectFieldValue (r : Request) (form : List (String × List String))
    (isForm : Bool) (fd : FieldDesc) :
    Except (Sum String GoError) (Option String × String) :=
  if fd.paramTag ≠ "" then
    match getPathParamVal r fd.paramTag with
    | .error msg => .error (.inl msg)
    | .ok val =>
      -- an empty path-parameter value is treated as absent
      .ok (if val ≠ "" then some val else none, fd.paramTag)
  else if fd.queryTag ≠ "" then
    -- `val, ok := r.URL.Query()[fieldName]; if ok { fieldValue = &val[0] }`
    .ok ((r.query.lookup fd.queryTag).map (fun vs => vs.headD ""), fd.queryTag)
  else if fd.formTag ≠ "" then
    if !isForm then
      .error (.inl "form tag is only available in form request")
    else
      .ok ((form.lookup fd.formTag).map (fun vs => vs.headD ""), fd.formTag)
  else
    .error (.inl
      "binded struct should have at least one tag, which is json or param or query")

/-- Re-attaching the current field's slot in front of the rest of the
loop's result (errors and panics short-circuit unchanged). -/
def bindFieldsCont (ns : FSlot) : BindResult → BindResult
  | .ok rest r' => .ok (ns :: rest) r'
  | other => other

/-- The per-field loop of `Bind` (after body decoding): source selection by
tag precedence `json` → `param` → `query` → `form`, presence-based
extraction, and coercion of present values; the first coercion failure
returns a wrapped `ErrRequestFieldFormat`. -/
def bindFields (r : Request) (form : List (String × List String))
    (isForm : Bool) :
    List FieldDesc → List FSlot → BindResult
  | [], slots => .ok slots r
  | _ :: _, [] => .ok [] r
  | fd :: fds, slot :: slots =>
    -- a `json`-tagged field was already bound by the body decoding step
    if fd.jsonTag ≠ "" then
      bindFieldsCont slot (bindFields r form isForm fds slots)
    else
      match selectFieldValue r form isForm fd with
      | .error (.inl msg) => .panicked msg r
      | .error (.inr e) => .err e r
      | .ok (none, _) =>
        -- absent source value: the slot keeps its current (zero) value
        bindFieldsCont slot (bindFields r form isForm fds slots)
      | .ok (some fieldValue, fieldName) =>
        match setStrToStructField fd.ftype fieldValue with
        | .error e => .err (wrapByErrBind (.errRequestFieldFormat fieldName e)) r
        | .ok newSlot => bindFieldsCont newSlot (bindFields r form isForm fds slots)

/-- Unfolding of the loop at a non-`json` field whose source value is
present. -/
theorem bindFields_cons_select_some (r : Request)
    (form : List (String × List String)) (isF : Bool) (fd : FieldDesc)
    (fds : List FieldDesc) (slots' : List FSlot) (slot : FSlot)
    (fv fieldName : String) (hj : ¬ fd.jsonTag ≠ "")
    (hsel : selectFieldValue r form isF fd = .ok (some fv, fieldName)) :
    bindFields r form isF (fd :: fds) (slot :: slots')
      = match setStrToStructField fd.ftype fv with
        | .error e => .err (wrapByErrBind (.errRequestFieldFormat fieldName e)) r
        | .ok newSlot => bindFieldsCont newSlot (bindFields r form isF fds slots') := by
  rw [bindFields, if_neg hj, hsel]

/-- Unfolding of the loop at a non-`json` field whose source value is
absent. -/
theorem bindFields_cons_select_none (r : Request)
    (form : List (String × List String)) (isF : Bool) (fd : FieldDesc)
    (fds : List FieldDesc) (slots' : List FSlot) (slot : FSlot)
    (fieldName : String) (hj : ¬ fd.jsonTag ≠ "")
    (hsel : selectFieldValue r form isF fd = .ok (none, fieldName)) :
    bindFields r form isF (fd :: fds) (slot :: slots')
      = bindFieldsCont slot (bindFields r form isF fds slots') := by
  rw [bindFields, if_neg hj, hsel]

/-- The phase of `Bind` after body decoding: short-circuit on a body
error; otherwise run `ParseForm` when the request is form-encoded, then
the per-field loop. -/
def bindAfterBody (r : Request) (fields : List FieldDesc)
    (afterBody : Except GoError (List FSlot)) : BindResult :=
  match afterBody with
  | .error e => .err e r
  | .ok slots =>
    let isForm := isFormRequest r
    if isForm then
      match goParseForm r with
      | (.error e, r') => .err (wrapByErrBind (.errRequestFormParse e)) r'
      | (.ok form, r') => bindFields r' form isForm fields slots
    else
      bindFields r [] isForm fields slots

/-- `Bind(r, s)`: the request binder.  `fields`/`slots` describe the
target struct (its tag-annotated fields and their current, normally zero,
values).  `unmarshalBody` is the external `json.Unmarshal(body, s)` step,
abstract here: it returns the updated slots or the decode error, which
`Bind` classifies by inspecting the error chain exactly as the source
does.  (The non-struct-target panic is outside the embedding: targets are
structs by construction.) -/
def Bind (r : Request) (fields : List FieldDesc) (slots : List FSlot)
    (unmarshalBody : String → List FSlot → Except GoError (List FSlot)) :
    BindResult :=
  -- content-type gate: "multipart/form-data" (and anything else that is
  -- neither form-encoded nor JSON) is unsupported
  if r.contentType ≠ "" ∧ ¬isFormRequest r ∧
      ¬goStartsWith r.contentType "application/json" then
    .err (.simpleError ("Content-Type is not supported:" ++ r.contentType)) r
  else
    let body := ioReaderToString r.body
    -- rebuffer so later stages can read the body again
    let r := { r with body := some body }
    let afterBody : Except GoError (List FSlot) :=
      if body ≠ "" ∧ ¬isFormRequest r then
        match unmarshalBody body slots with
        | .ok slots' => .ok slots'
        | .error e =>
          if chainHasJsonSyntaxError e then
            .error (wrapByErrBind (.errRequestJsonSyntaxError body e))
          else
            match chainTypeErrorField e with
            | some f => .error (wrapByErrBind (.errRequestFieldFormat f e))
            | none =>
              .error (wrapByErrBind (.errRequestJsonSomethingInvalid body e))
      else
        .ok slots
    bindAfterBody r fields afterBody

/-- The request a `Bind` outcome left behind. -/
def BindResult.request : BindResult → Request
  | .ok _ r => r
  | .err _ r => r
  | .panicked _ r => r

/-- Did `Bind` panic? -/
def BindResult.isPanic : BindResult → Bool
  | .panicked _ _ => true
  | _ => false

/-! ## Basic facts about outcomes and event lists -/

theorem prependEvents_nil (o : Outcome) : prependEvents [] o = o := by
  simp [prependEvents]

theorem consEvent_prependEvents (e : Event) (l : List Event) (o : Outcome) :
    consEvent e (prependEvents l o) = prependEvents (e :: l) o := by
  simp [consEvent, prependEvents]

theorem writesOf_append (l₁ l₂ : List Event) :
    writesOf (l₁ ++ l₂) = writesOf l₁ ++ writesOf l₂ := by
  simp [writesOf]

theorem writesOf_map_mwCalled (ls : List String) :
    writesOf (ls.map Event.mwCalled) = [] := by
  induction ls with
  | nil => rfl
  | cons a t ih => simpa [writesOf] using ih

/-! ## The middleware chain lemmas

How the two composers behave on the instrumented middleware: a tier of
emitters passes through, accumulating its labels in order; a panicking
element stops the chain with the labels accumulated so far. -/

theorem constructBefore_emit (cfg : Config) (cms : List String)
    (hc : cfg.commonMiddleware = cms.map emitMW) :
    ∀ idx, idx ≤ cms.length → ∀ r,
      constructHandlerBeforeRouting cfg idx r =
        prependEvents ((cms.drop idx).map Event.mwCalled) (routingHandler cfg r) := by
  suffices h : ∀ n idx, cms.length - idx = n → idx ≤ cms.length → ∀ r,
      constructHandlerBeforeRouting cfg idx r =
        prependEvents ((cms.drop idx).map Event.mwCalled) (routingHandler cfg r) by
    intro idx hidx r
    exact h _ idx rfl hidx r
  intro n
  induction n with
  | zero =>
    intro idx hn hidx r
    have hix : idx = cms.length := by omega
    rw [constructHandlerBeforeRouting]
    have hguard : ¬ ((idx : Int) ≤ (cfg.commonMiddleware.length : Int) - 1) := by
      rw [hc]; simp; omega
    rw [dif_neg hguard, hix, List.drop_length]
    simp [prependEvents]
  | succ n ih =>
    intro idx hn hidx r
    have hlt : idx < cms.length := by omega
    rw [constructHandlerBeforeRouting]
    have hguard : (idx : Int) ≤ (cfg.commonMiddleware.length : Int) - 1 := by
      rw [hc]; simp; omega
    rw [dif_pos hguard]
    have hget : cfg.commonMiddleware.get
        ⟨idx, by rw [hc]; simpa using hlt⟩ = emitMW (cms.get ⟨idx, hlt⟩) := by
      simp [hc]
    rw [hget]
    show consEvent (.mwCalled (cms.get ⟨idx, hlt⟩))
      (constructHandlerBeforeRouting cfg (idx + 1) r) = _
    rw [ih (idx + 1) (by omega) (by omega) r, consEvent_prependEvents]
    rw [List.drop_eq_getElem_cons hlt, List.map_cons]
    simp

theorem constructBefore_panic (cfg : Config) (cs : List String)
    (rest : List GoMiddleware) (msg : String)
    (hc : cfg.commonMiddleware = cs.map emitMW ++ panicMW msg :: rest) :
    ∀ idx, idx ≤ cs.length → ∀ r,
      constructHandlerBeforeRouting cfg idx r =
        ⟨(cs.drop idx).map Event.mwCalled, some msg⟩ := by
  suffices h : ∀ n idx, cs.length - idx = n → idx ≤ cs.length → ∀ r,
      constructHandlerBeforeRouting cfg idx r =
        ⟨(cs.drop idx).map Event.mwCalled, some msg⟩ by
    intro idx hidx r
    exact h _ idx rfl hidx r
  intro n
  induction n with
  | zero =>
    intro idx hn hidx r
    have hix : idx = cs.length := by omega
    rw [constructHandlerBeforeRouting]
    have hguard : (idx : Int) ≤ (cfg.commonMiddleware.length : Int) - 1 := by
      rw [hc]; simp; omega
    rw [dif_pos hguard]
    have hget : cfg.commonMiddleware.get
        ⟨idx, by rw [hc]; simp; omega⟩ = panicMW msg := by
      subst hix
      rw [List.get_eq_getElem]
      have hlen : (cs.map emitMW).length ≤ cs.length := by simp
      simp only [hc]
      rw [List.getElem_append_right (by simpa using hlen)]
      simp
    rw [hget, hix, List.drop_length]
    rfl
  | succ n ih =>
    intro idx hn hidx r
    have hlt : idx < cs.length := by omega
    rw [constructHandlerBeforeRouting]
    have hguard : (idx : Int) ≤ (cfg.commonMiddleware.length : Int) - 1 := by
      rw [hc]; simp; omega
    rw [dif_pos hguard]
    have hget : cfg.commonMiddleware.get
        ⟨idx, by rw [hc]; simp; omega⟩ = emitMW (cs.get ⟨idx, hlt⟩) := by
      rw [List.get_eq_getElem]
      simp only [hc]
      rw [List.getElem_append_left (by simpa using hlt)]
      simp
    rw [hget]
    show consEvent (.mwCalled (cs.get ⟨idx, hlt⟩))
      (constructHandlerBeforeRouting cfg (idx + 1) r) = _
    rw [ih (idx + 1) (by omega) (by omega) r]
    simp only [consEvent]
    rw [List.drop_eq_getElem_cons hlt, List.map_cons]
    simp

/-- Traversing the per-route (first) phase of the after-routing chain:
when the per-route tier consists of emitters, the chain from index `idx`
emits the remaining labels and continues at the start of the
`commonAfterMiddleware` phase. -/
theorem constructAfter_phase1 (cfg : Config) (ru : Route) (rms : List String)
    (hm : ru.middleware = rms.map emitMW) :
    ∀ idx, idx ≤ rms.length → ∀ r,
      constructHandlerAfterRouting cfg idx ru r =
        prependEvents ((rms.drop idx).map Event.mwCalled)
          (constructHandlerAfterRouting cfg rms.length ru r) := by
  suffices h : ∀ n idx, rms.length - idx = n → idx ≤ rms.length → ∀ r,
      constructHandlerAfterRouting cfg idx ru r =
        prependEvents ((rms.drop idx).map Event.mwCalled)
          (constructHandlerAfterRouting cfg rms.length ru r) by
    intro idx hidx r
    exact h _ idx rfl hidx r
  intro n
  induction n with
  | zero =>
    intro idx hn hidx r
    have hix : idx = rms.length := by omega
    rw [hix, List.drop_length]
    simp [prependEvents]
  | succ n ih =>
    intro idx hn hidx r
    have hlt : idx < rms.length := by omega
    rw [constructHandlerAfterRouting]
    have hguard : (idx : Int) ≤ (ru.middleware.length : Int) - 1 := by
      rw [hm]; simp; omega
    rw [dif_pos hguard]
    have hget : ru.middleware.get ⟨idx, by rw [hm]; simp; omega⟩
        = emitMW (rms.get ⟨idx, hlt⟩) := by
      simp [hm]
    rw [hget]
    show consEvent (.mwCalled (rms.get ⟨idx, hlt⟩))
      (constructHandlerAfterRouting cfg (idx + 1) ru r) = _
    rw [ih (idx + 1) (by omega) (by omega) r, consEvent_prependEvents]
    rw [List.drop_eq_getElem_cons hlt, List.map_cons]
    simp

/-- The `commonAfterMiddleware` (second) phase on emitters: emits the
remaining labels and ends in the route's handler. -/
theorem constructAfter_phase2_emit (cfg : Config) (ru : Route)
    (ams : List String)
    (ha : cfg.commonAfterMiddleware = ams.map emitMW) :
    ∀ idx, ru.middleware.length ≤ idx →
      idx ≤ ru.middleware.length + ams.length → ∀ r,
      constructHandlerAfterRouting cfg idx ru r =
        prependEvents ((ams.drop (idx - ru.middleware.length)).map Event.mwCalled)
          (ru.handler r) := by
  suffices h : ∀ n idx, ru.middleware.length + ams.length - idx = n →
      ru.middleware.length ≤ idx →
      idx ≤ ru.middleware.length + ams.length → ∀ r,
      constructHandlerAfterRouting cfg idx ru r =
        prependEvents ((ams.drop (idx - ru.middleware.length)).map Event.mwCalled)
          (ru.handler r) by
    intro idx h1 h2 r
    exact h _ idx rfl h1 h2 r
  intro n
  induction n with
  | zero =>
    intro idx hn h1 h2 r
    rw [constructHandlerAfterRouting]
    have hguard1 : ¬ ((idx : Int) ≤ (ru.middleware.length : Int) - 1) := by
      simp; omega
    have hguard2 : ¬ ((idx : Int) - (ru.middleware.length : Int) ≤
        (cfg.commonAfterMiddleware.length : Int) - 1) := by
      rw [ha]; simp; omega
    rw [dif_neg hguard1, dif_neg hguard2]
    have hdrop : idx - ru.middleware.length = ams.length := by omega
    rw [hdrop, List.drop_length]
    simp [prependEvents]
  | succ n ih =>
    intro idx hn h1 h2 r
    have hlt : idx - ru.middleware.length < ams.length := by omega
    rw [constructHandlerAfterRouting]
    have hguard1 : ¬ ((idx : Int) ≤ (ru.middleware.length : Int) - 1) := by
      simp; omega
    have hguard2 : (idx : Int) - (ru.middleware.length : Int) ≤
        (cfg.commonAfterMiddleware.length : Int) - 1 := by
      rw [ha]; simp; omega
    rw [dif_neg hguard1, dif_pos hguard2]
    have hget : cfg.commonAfterMiddleware.get
        ⟨idx - ru.middleware.length, by rw [ha]; simp; omega⟩
        = emitMW (ams.get ⟨idx - ru.middleware.length, hlt⟩) := by
      simp [ha]
    rw [hget]
    show consEvent (.mwCalled (ams.get ⟨idx - ru.middleware.length, hlt⟩))
      (constructHandlerAfterRouting cfg (idx + 1) ru r) = _
    rw [ih (idx + 1) (by omega) (by omega) (by omega) r, consEvent_prependEvents]
    have hstep : idx + 1 - ru.middleware.length = (idx - ru.middleware.length) + 1 := by
      omega
    rw [hstep, List.drop_eq_getElem_cons hlt, List.map_cons]
    simp

/-- The second phase when `commonAfterMiddleware` panics after some
emitters: the labels before the panicking element are emitted, then the
chain stops with the pending panic. -/
theorem constructAfter_phase2_panic (cfg : Config) (ru : Route)
    (cs : List String) (rest : List GoMiddleware) (msg : String)
    (ha : cfg.commonAfterMiddleware = cs.map emitMW ++ panicMW msg :: rest) :
    ∀ idx, ru.middleware.length ≤ idx →
      idx - ru.middleware.length ≤ cs.length → ∀ r,
      constructHandlerAfterRouting cfg idx ru r =
        ⟨(cs.drop (idx - ru.middleware.length)).map Event.mwCalled, some msg⟩ := by
  suffices h : ∀ n idx, ru.middleware.length + cs.length - idx = n →
      ru.middleware.length ≤ idx → idx - ru.middleware.length ≤ cs.length → ∀ r,
      constructHandlerAfterRouting cfg idx ru r =
        ⟨(cs.drop (idx - ru.middleware.length)).map Event.mwCalled, some msg⟩ by
    intro idx h1 h2 r
    exact h _ idx rfl h1 h2 r
  intro n
  induction n with
  | zero =>
    intro idx hn h1 h2 r
    have hix : idx - ru.middleware.length = cs.length := by omega
    rw [constructHandlerAfterRouting]
    have hguard1 : ¬ ((idx : Int) ≤ (ru.middleware.length : Int) - 1) := by
      simp; omega
    have hguard2 : (idx : Int) - (ru.middleware.length : Int) ≤
        (cfg.commonAfterMiddleware.length : Int) - 1 := by
      rw [ha]; simp; omega
    rw [dif_neg hguard1, dif_pos hguard2]
    have hget : cfg.commonAfterMiddleware.get
        ⟨idx - ru.middleware.length, by rw [ha]; simp; omega⟩ = panicMW msg := by
      rw [List.get_eq_getElem]
      simp only [ha]
      rw [List.getElem_append_right (by simp; omega)]
      simp [hix]
    rw [hget, hix, List.drop_length]
    rfl
  | succ n ih =>
    intro idx hn h1 h2 r
    have hlt : idx - ru.middleware.length < cs.length := by omega
    rw [constructHandlerAfterRouting]
    have hguard1 : ¬ ((idx : Int) ≤ (ru.middleware.length : Int) - 1) := by
      simp; omega
    have hguard2 : (idx : Int) - (ru.middleware.length : Int) ≤
        (cfg.commonAfterMiddleware.length : Int) - 1 := by
      rw [ha]; simp; omega
    rw [dif_neg hguard1, dif_pos hguard2]
    have hget : cfg.commonAfterMiddleware.get
        ⟨idx - ru.middleware.length, by rw [ha]; simp; omega⟩
        = emitMW (cs.get ⟨idx - ru.middleware.length, hlt⟩) := by
      rw [List.get_eq_getElem]
      simp only [ha]
      rw [List.getElem_append_left (by simpa using hlt)]
      simp
    rw [hget]
    show consEvent (.mwCalled (cs.get ⟨idx - ru.middleware.length, hlt⟩))
      (constructHandlerAfterRouting cfg (idx + 1) ru r) = _
    rw [ih (idx + 1) (by omega) (by omega) (by omega) r]
    simp only [consEvent]
    have hstep : idx + 1 - ru.middleware.length = (idx - ru.middleware.length) + 1 := by
      omega
    rw [hstep, List.drop_eq_getElem_cons hlt, List.map_cons]
    simp

/-- The per-route tier panics after some emitters: the labels before the
panicking element are emitted, then the chain stops. -/
theorem constructAfter_panic_route (cfg : Config) (ru : Route)
    (cs : List String) (rest : List GoMiddleware) (msg : String)
    (hm : ru.middleware = cs.map emitMW ++ panicMW msg :: rest) :
    ∀ idx, idx ≤ cs.length → ∀ r,
      constructHandlerAfterRouting cfg idx ru r =
        ⟨(cs.drop idx).map Event.mwCalled, some msg⟩ := by
  suffices h : ∀ n idx, cs.length - idx = n → idx ≤ cs.length → ∀ r,
      constructHandlerAfterRouting cfg idx ru r =
        ⟨(cs.drop idx).map Event.mwCalled, some msg⟩ by
    intro idx hidx r
    exact h _ idx rfl hidx r
  intro n
  induction n with
  | zero =>
    intro idx hn hidx r
    have hix : idx = cs.length := by omega
    rw [constructHandlerAfterRouting]
    have hguard : (idx : Int) ≤ (ru.middleware.length : Int) - 1 := by
      rw [hm]; simp; omega
    rw [dif_pos hguard]
    have hget : ru.middleware.get ⟨idx, by rw [hm]; simp; omega⟩ = panicMW msg := by
      subst hix
      rw [List.get_eq_getElem]
      simp only [hm]
      rw [List.getElem_append_right (by simp)]
      simp
    rw [hget, hix, List.drop_length]
    rfl
  | succ n ih =>
    intro idx hn hidx r
    have hlt : idx < cs.length := by omega
    rw [constructHandlerAfterRouting]
    have hguard : (idx : Int) ≤ (ru.middleware.length : Int) - 1 := by
      rw [hm]; simp; omega
    rw [dif_pos hguard]
    have hget : ru.middleware.get ⟨idx, by rw [hm]; simp; omega⟩
        = emitMW (cs.get ⟨idx, hlt⟩) := by
      rw [List.get_eq_getElem]
      simp only [hm]
      rw [List.getElem_append_left (by simpa using hlt)]
      simp
    rw [hget]
    show consEvent (.mwCalled (cs.get ⟨idx, hlt⟩))
      (constructHandlerAfterRouting cfg (idx + 1) ru r) = _
    rw [ih (idx + 1) (by omega) (by omega) r]
    simp only [consEvent]
    rw [List.drop_eq_getElem_cons hlt, List.map_cons]
    simp

/-- A configuration whose two global middleware tiers are emitters with
the given labels. -/
def emitCfg (router : RouterTable) (cms ams : List String)
    (nm nmct ise isect : String) : Config :=
  ⟨router, cms.map emitMW, ams.map emitMW, nm, nmct, ise, isect⟩

/-- C5: for a request resolving to a registered route, the composed chain
runs the global pre-routing middleware in registration order, then (after
route resolution) the per-route middleware in registration order, then the
global post-routing middleware in registration order, then the route's
handler — and nothing else; for a request resolving to no route, only the
global pre-routing middleware runs, followed by the "no method" response
write: no per-route or post-routing middleware executes. -/
theorem chain_executes_tiers_in_order
    (router : RouterTable) (cms rms ams : List String) (hl pn : String)
    (nm nmct ise isect : String) (r : Request) :
    (((∃ tbl, resolve router r.method r.path
          = .paramMatch ⟨emitHandler hl, pn, rms.map emitMW⟩ tbl) ∨
        resolve router r.method r.path
          = .exactMatch ⟨emitHandler hl, pn, rms.map emitMW⟩) →
      (recoverHandler (emitCfg router cms ams nm nmct ise isect) r).events
        = cms.map Event.mwCalled ++ rms.map Event.mwCalled
            ++ ams.map Event.mwCalled ++ [Event.handlerCalled hl]) ∧
    (resolve router r.method r.path = .noRoute →
      (recoverHandler (emitCfg router cms ams nm nmct ise isect) r).events
        = cms.map Event.mwCalled ++ [Event.wrote ⟨nmct, 404, nm⟩]) := by
  have hafter : ∀ r' : Request,
      constructHandlerAfterRouting (emitCfg router cms ams nm nmct ise isect) 0
        ⟨emitHandler hl, pn, rms.map emitMW⟩ r'
      = ⟨rms.map Event.mwCalled ++ ams.map Event.mwCalled
          ++ [Event.handlerCalled hl], none⟩ := by
    intro r'
    rw [constructAfter_phase1 _ _ rms rfl 0 (Nat.zero_le _) r']
    rw [constructAfter_phase2_emit _ _ ams rfl rms.length (by simp)
      (by simp) r']
    simp [emitHandler, prependEvents]
  constructor
  · intro hres
    have hbefore := constructBefore_emit
      (emitCfg router cms ams nm nmct ise isect) cms rfl 0 (Nat.zero_le _) r
    have hrouting : routingHandler (emitCfg router cms ams nm nmct ise isect) r
        = ⟨rms.map Event.mwCalled ++ ams.map Event.mwCalled
            ++ [Event.handlerCalled hl], none⟩ := by
      rcases hres with ⟨tbl, hres⟩ | hres
      · show (match resolve router r.method r.path with
          | .paramMatch ru table =>
            constructHandlerAfterRouting (emitCfg router cms ams nm nmct ise isect)
              0 ru { r with ctxPathParam := some table }
          | .exactMatch ru =>
            constructHandlerAfterRouting (emitCfg router cms ams nm nmct ise isect)
              0 ru r
          | .noRoute => ⟨[.wrote ⟨nmct, 404, nm⟩], none⟩
          | .panicked msg => ⟨[], some msg⟩) = _
        rw [hres]
        exact hafter _
      · show (match resolve router r.method r.path with
          | .paramMatch ru table =>
            constructHandlerAfterRouting (emitCfg router cms ams nm nmct ise isect)
              0 ru { r with ctxPathParam := some table }
          | .exactMatch ru =>
            constructHandlerAfterRouting (emitCfg router cms ams nm nmct ise isect)
              0 ru r
          | .noRoute => ⟨[.wrote ⟨nmct, 404, nm⟩], none⟩
          | .panicked msg => ⟨[], some msg⟩) = _
        rw [hres]
        exact hafter _
    show (recoverHandler (emitCfg router cms ams nm nmct ise isect) r).events = _
    rw [recoverHandler]
    rw [hbefore, hrouting]
    simp [prependEvents]
  · intro hres
    have hbefore := constructBefore_emit
      (emitCfg router cms ams nm nmct ise isect) cms rfl 0 (Nat.zero_le _) r
    have hrouting : routingHandler (emitCfg router cms ams nm nmct ise isect) r
        = ⟨[.wrote ⟨nmct, 404, nm⟩], none⟩ := by
      show (match resolve router r.method r.path with
        | .paramMatch ru table =>
          constructHandlerAfterRouting (emitCfg router cms ams nm nmct ise isect)
            0 ru { r with ctxPathParam := some table }
        | .exactMatch ru =>
          constructHandlerAfterRouting (emitCfg router cms ams nm nmct ise isect)
            0 ru r
        | .noRoute => ⟨[.wrote ⟨nmct, 404, nm⟩], none⟩
        | .panicked msg => ⟨[], some msg⟩) = _
      rw [hres]
    rw [recoverHandler]
    rw [hbefore, hrouting]
    simp [prependEvents]

/-- When resolution finds a route (with or without a path parameter),
`routingHandler` hands the (possibly context-extended) request to the
after-routing chain of that route. -/
theorem routingHandler_eq_of_resolve (cfg : Config) (r : Request) (ru : Route)
    (hres : (∃ tbl, resolve cfg.router r.method r.path = .paramMatch ru tbl) ∨
      resolve cfg.router r.method r.path = .exactMatch ru) :
    ∃ r' : Request,
      routingHandler cfg r = constructHandlerAfterRouting cfg 0 ru r' := by
  rcases hres with ⟨tbl, hres⟩ | hres
  · refine ⟨{ r with ctxPathParam := some tbl }, ?_⟩
    show (match resolve cfg.router r.method r.path with
      | .paramMatch ru table =>
        constructHandlerAfterRouting cfg 0 ru { r with ctxPathParam := some table }
      | .exactMatch ru => constructHandlerAfterRouting cfg 0 ru r
      | .noRoute =>
        ⟨[.wrote ⟨cfg.noMethodContentType, 404, cfg.noMethodResponse⟩], none⟩
      | .panicked msg => ⟨[], some msg⟩) = _
    rw [hres]
  · refine ⟨r, ?_⟩
    show (match resolve cfg.router r.method r.path with
      | .paramMatch ru table =>
        constructHandlerAfterRouting cfg 0 ru { r with ctxPathParam := some table }
      | .exactMatch ru => constructHandlerAfterRouting cfg 0 ru r
      | .noRoute =>
        ⟨[.wrote ⟨cfg.noMethodContentType, 404, cfg.noMethodResponse⟩], none⟩
      | .panicked msg => ⟨[], some msg⟩) = _
    rw [hres]

/-- The recovery boundary on a panicked chain that has written nothing:
the events so far are kept, the diagnostic is logged, and exactly the one
configured internal-server-error response is written; the panic is
swallowed. -/
theorem recover_of_panic (cfg : Config) (r : Request) (pre : List Event)
    (msg : String)
    (h : constructHandlerBeforeRouting cfg 0 r = ⟨pre, some msg⟩)
    (hw : writesOf pre = []) :
    (recoverHandler cfg r).events
      = pre ++ [.logged ("panic(server recovered): " ++ msg),
          .wrote ⟨cfg.internalServerErrorContentType, 500,
            cfg.internalServerErrorResponse⟩] ∧
    (recoverHandler cfg r).panicMsg = none ∧
    writesOf (recoverHandler cfg r).events
      = [⟨cfg.internalServerErrorContentType, 500,
          cfg.internalServerErrorResponse⟩] := by
  have hrec : recoverHandler cfg r
      = ⟨pre ++ [.logged ("panic(server recovered): " ++ msg),
          .wrote ⟨cfg.internalServerErrorContentType, 500,
            cfg.internalServerErrorResponse⟩], none⟩ := by
    rw [recoverHandler, h]
  rw [hrec]
  refine ⟨rfl, rfl, ?_⟩
  rw [writesOf_append, hw]
  simp [writesOf]

/-- C3: a panic raised in any tier — a global pre-routing middleware, a
per-route middleware, a global post-routing middleware, or the route's
handler — is recovered at the single outermost boundary: the diagnostic is
logged and exactly one response is written, the configured internal-fault
content type, status 500 and body, regardless of which tier panicked
(the rest of the chain is never reached). -/
theorem panic_in_any_tier_yields_single_500
    (router : RouterTable) (r : Request) (msg : String)
    (cms a b rms ams : List String) (pn : String) (hb : GoHandler)
    (nm nmct ise isect : String) :
    -- a global pre-routing middleware panics
    ((recoverHandler
        ⟨router, a.map emitMW ++ panicMW msg :: b.map emitMW,
          ams.map emitMW, nm, nmct, ise, isect⟩ r).events
      = a.map Event.mwCalled
          ++ [.logged ("panic(server recovered): " ++ msg),
              .wrote ⟨isect, 500, ise⟩] ∧
     writesOf (recoverHandler
        ⟨router, a.map emitMW ++ panicMW msg :: b.map emitMW,
          ams.map emitMW, nm, nmct, ise, isect⟩ r).events
      = [⟨isect, 500, ise⟩] ∧
     (recoverHandler
        ⟨router, a.map emitMW ++ panicMW msg :: b.map emitMW,
          ams.map emitMW, nm, nmct, ise, isect⟩ r).panicMsg = none) ∧
    -- a per-route middleware panics
    (((∃ tbl, resolve router r.method r.path
          = .paramMatch ⟨hb, pn, a.map emitMW ++ panicMW msg :: b.map emitMW⟩ tbl) ∨
       resolve router r.method r.path
          = .exactMatch ⟨hb, pn, a.map emitMW ++ panicMW msg :: b.map emitMW⟩) →
      (recoverHandler (emitCfg router cms ams nm nmct ise isect) r).events
        = cms.map Event.mwCalled ++ a.map Event.mwCalled
            ++ [.logged ("panic(server recovered): " ++ msg),
                .wrote ⟨isect, 500, ise⟩] ∧
      writesOf (recoverHandler (emitCfg router cms ams nm nmct ise isect) r).events
        = [⟨isect, 500, ise⟩] ∧
      (recoverHandler (emitCfg router cms ams nm nmct ise isect) r).panicMsg
        = none) ∧
    -- a global post-routing middleware panics
    (((∃ tbl, resolve router r.method r.path
          = .paramMatch ⟨hb, pn, rms.map emitMW⟩ tbl) ∨
       resolve router r.method r.path = .exactMatch ⟨hb, pn, rms.map emitMW⟩) →
      (recoverHandler
          ⟨router, cms.map emitMW, a.map emitMW ++ panicMW msg :: b.map emitMW,
            nm, nmct, ise, isect⟩ r).events
        = cms.map Event.mwCalled ++ rms.map Event.mwCalled
            ++ a.map Event.mwCalled
            ++ [.logged ("panic(server recovered): " ++ msg),
                .wrote ⟨isect, 500, ise⟩] ∧
      writesOf (recoverHandler
          ⟨router, cms.map emitMW, a.map emitMW ++ panicMW msg :: b.map emitMW,
            nm, nmct, ise, isect⟩ r).events
        = [⟨isect, 500, ise⟩] ∧
      (recoverHandler
          ⟨router, cms.map emitMW, a.map emitMW ++ panicMW msg :: b.map emitMW,
            nm, nmct, ise, isect⟩ r).panicMsg = none) ∧
    -- the route's handler panics
    (((∃ tbl, resolve router r.method r.path
          = .paramMatch ⟨panicHandler msg, pn, rms.map emitMW⟩ tbl) ∨
       resolve router r.method r.path
          = .exactMatch ⟨panicHandler msg, pn, rms.map emitMW⟩) →
      (recoverHandler (emitCfg router cms ams nm nmct ise isect) r).events
        = cms.map Event.mwCalled ++ rms.map Event.mwCalled
            ++ ams.map Event.mwCalled
            ++ [.logged ("panic(server recovered): " ++ msg),
                .wrote ⟨isect, 500, ise⟩] ∧
      writesOf (recoverHandler (emitCfg router cms ams nm nmct ise isect) r).events
        = [⟨isect, 500, ise⟩] ∧
      (recoverHandler (emitCfg router cms ams nm nmct ise isect) r).panicMsg
        = none) := by
  refine ⟨?_, ?_, ?_, ?_⟩
  · -- pre tier
    have h := constructBefore_panic
      ⟨router, a.map emitMW ++ panicMW msg :: b.map emitMW,
        ams.map emitMW, nm, nmct, ise, isect⟩ a (b.map emitMW) msg rfl 0
      (Nat.zero_le _) r
    simp only [List.drop_zero] at h
    have hres := recover_of_panic _ r _ msg h (writesOf_map_mwCalled a)
    exact ⟨hres.1, hres.2.2, hres.2.1⟩
  · -- per-route tier
    intro hres
    obtain ⟨r', hr'⟩ := routingHandler_eq_of_resolve
      (emitCfg router cms ams nm nmct ise isect) r _ hres
    have hafter := constructAfter_panic_route
      (emitCfg router cms ams nm nmct ise isect)
      ⟨hb, pn, a.map emitMW ++ panicMW msg :: b.map emitMW⟩ a (b.map emitMW)
      msg rfl 0 (Nat.zero_le _) r'
    simp only [List.drop_zero] at hafter
    have hbefore := constructBefore_emit
      (emitCfg router cms ams nm nmct ise isect) cms rfl 0 (Nat.zero_le _) r
    rw [hr', hafter] at hbefore
    have hpre : constructHandlerBeforeRouting
        (emitCfg router cms ams nm nmct ise isect) 0 r
        = ⟨cms.map Event.mwCalled ++ a.map Event.mwCalled, some msg⟩ := by
      rw [hbefore]; rfl
    have hout := recover_of_panic _ r _ msg hpre
      (by rw [writesOf_append, writesOf_map_mwCalled, writesOf_map_mwCalled]; rfl)
    refine ⟨by rw [hout.1]; simp [emitCfg], hout.2.2, hout.2.1⟩
  · -- post-routing tier
    intro hres
    obtain ⟨r', hr'⟩ := routingHandler_eq_of_resolve
      ⟨router, cms.map emitMW, a.map emitMW ++ panicMW msg :: b.map emitMW,
        nm, nmct, ise, isect⟩ r _ hres
    have hphase1 := constructAfter_phase1
      ⟨router, cms.map emitMW, a.map emitMW ++ panicMW msg :: b.map emitMW,
        nm, nmct, ise, isect⟩ ⟨hb, pn, rms.map emitMW⟩ rms rfl 0
      (Nat.zero_le _) r'
    have hphase2 := constructAfter_phase2_panic
      ⟨router, cms.map emitMW, a.map emitMW ++ panicMW msg :: b.map emitMW,
        nm, nmct, ise, isect⟩ ⟨hb, pn, rms.map emitMW⟩ a (b.map emitMW) msg rfl
      rms.length (by simp) (by simp) r'
    simp only [List.drop_zero] at hphase1
    rw [hphase2] at hphase1
    have hdrop : rms.length - (rms.map emitMW).length = 0 := by simp
    rw [hdrop, List.drop_zero] at hphase1
    have hbefore := constructBefore_emit
      ⟨router, cms.map emitMW, a.map emitMW ++ panicMW msg :: b.map emitMW,
        nm, nmct, ise, isect⟩ cms rfl 0 (Nat.zero_le _) r
    rw [hr', hphase1] at hbefore
    have hpre : constructHandlerBeforeRouting
        ⟨router, cms.map emitMW, a.map emitMW ++ panicMW msg :: b.map emitMW,
          nm, nmct, ise, isect⟩ 0 r
        = ⟨cms.map Event.mwCalled
            ++ (rms.map Event.mwCalled ++ a.map Event.mwCalled), some msg⟩ := by
      rw [hbefore]; rfl
    have hout := recover_of_panic _ r _ msg hpre
      (by rw [writesOf_append, writesOf_append, writesOf_map_mwCalled,
        writesOf_map_mwCalled, writesOf_map_mwCalled]; rfl)
    refine ⟨by rw [hout.1]; simp, hout.2.2, hout.2.1⟩
  · -- handler
    intro hres
    obtain ⟨r', hr'⟩ := routingHandler_eq_of_resolve
      (emitCfg router cms ams nm nmct ise isect) r _ hres
    have hphase1 := constructAfter_phase1
      (emitCfg router cms ams nm nmct ise isect)
      ⟨panicHandler msg, pn, rms.map emitMW⟩ rms rfl 0 (Nat.zero_le _) r'
    have hphase2 := constructAfter_phase2_emit
      (emitCfg router cms ams nm nmct ise isect)
      ⟨panicHandler msg, pn, rms.map emitMW⟩ ams rfl rms.length (by simp)
      (by simp) r'
    simp only [List.drop_zero] at hphase1
    rw [hphase2] at hphase1
    have hdrop : rms.length - (rms.map emitMW).length = 0 := by simp
    rw [hdrop, List.drop_zero] at hphase1
    have hbefore := constructBefore_emit
      (emitCfg router cms ams nm nmct ise isect) cms rfl 0 (Nat.zero_le _) r
    rw [hr', hphase1] at hbefore
    have hpre : constructHandlerBeforeRouting
        (emitCfg router cms ams nm nmct ise isect) 0 r
        = ⟨cms.map Event.mwCalled
            ++ (rms.map Event.mwCalled ++ ams.map Event.mwCalled), some msg⟩ := by
      rw [hbefore]
      simp [prependEvents, panicHandler]
    have hout := recover_of_panic _ r _ msg hpre
      (by rw [writesOf_append, writesOf_append, writesOf_map_mwCalled,
        writesOf_map_mwCalled, writesOf_map_mwCalled]; rfl)
    refine ⟨by rw [hout.1]; simp [emitCfg], hout.2.2, hout.2.1⟩

/-! ## Concrete demonstration data for the routing claims -/

/-- A router with the single registration `GET /x` carrying one per-route
middleware and an instrumented handler. -/
def demoRouter : RouterTable :=
  [("GET /x", ⟨emitHandler "h", "", [emitMW "r1"]⟩)]

/-- A router whose per-route tier panics after one emitter. -/
def demoRouterMwPanics : RouterTable :=
  [("GET /x", ⟨emitHandler "h", "", [emitMW "r1", panicMW "boom"]⟩)]

/-- A router whose handler panics. -/
def demoRouterHandlerPanics : RouterTable :=
  [("GET /x", ⟨panicHandler "boom", "", [emitMW "r1"]⟩)]

def reqGetX : Request := ⟨"GET", "/x", [], "", none, none⟩

def reqGetMissing : Request := ⟨"GET", "/missing", [], "", none, none⟩

theorem chain_executes_tiers_in_order_witness :
    (recoverHandler (emitCfg demoRouter ["m1", "m2"] ["a1"]
        "nm" "ct" "ise" "isect") reqGetX).events
      = [.mwCalled "m1", .mwCalled "m2", .mwCalled "r1", .mwCalled "a1",
         .handlerCalled "h"] ∧
    (recoverHandler (emitCfg demoRouter ["m1", "m2"] ["a1"]
        "nm" "ct" "ise" "isect") reqGetMissing).events
      = [.mwCalled "m1", .mwCalled "m2", .wrote ⟨"ct", 404, "nm"⟩] := by
  constructor
  · exact (chain_executes_tiers_in_order demoRouter ["m1", "m2"] ["r1"] ["a1"]
      "h" "" "nm" "ct" "ise" "isect" reqGetX).1 (Or.inr rfl)
  · exact (chain_executes_tiers_in_order demoRouter ["m1", "m2"] ["r1"] ["a1"]
      "h" "" "nm" "ct" "ise" "isect" reqGetMissing).2 rfl

theorem panic_in_any_tier_yields_single_500_witness :
    (recoverHandler
        ⟨demoRouter, ["m1"].map emitMW ++ panicMW "boom" :: ["m2"].map emitMW,
          ["a1"].map emitMW, "nm", "ct", "ise", "isect"⟩ reqGetX).events
      = [.mwCalled "m1", .logged "panic(server recovered): boom",
         .wrote ⟨"isect", 500, "ise"⟩] ∧
    (recoverHandler (emitCfg demoRouterMwPanics ["m1"] ["a1"]
        "nm" "ct" "ise" "isect") reqGetX).events
      = [.mwCalled "m1", .mwCalled "r1",
         .logged "panic(server recovered): boom",
         .wrote ⟨"isect", 500, "ise"⟩] ∧
    (recoverHandler
        ⟨demoRouter, ["m1"].map emitMW,
          ["a1"].map emitMW ++ panicMW "boom" :: [].map emitMW,
          "nm", "ct", "ise", "isect"⟩ reqGetX).events
      = [.mwCalled "m1", .mwCalled "r1", .mwCalled "a1",
         .logged "panic(server recovered): boom",
         .wrote ⟨"isect", 500, "ise"⟩] ∧
    (recoverHandler (emitCfg demoRouterHandlerPanics ["m1"] ["a1"]
        "nm" "ct" "ise" "isect") reqGetX).events
      = [.mwCalled "m1", .mwCalled "r1", .mwCalled "a1",
         .logged "panic(server recovered): boom",
         .wrote ⟨"isect", 500, "ise"⟩] := by
  refine ⟨?_, ?_, ?_, ?_⟩
  · exact (panic_in_any_tier_yields_single_500 demoRouter reqGetX "boom"
      [] ["m1"] ["m2"] [] ["a1"] "" (emitHandler "h") "nm" "ct" "ise" "isect").1.1
  · exact ((panic_in_any_tier_yields_single_500 demoRouterMwPanics reqGetX "boom"
      ["m1"] ["r1"] [] [] ["a1"] "" (emitHandler "h")
      "nm" "ct" "ise" "isect").2.1 (Or.inr rfl)).1
  · exact ((panic_in_any_tier_yields_single_500 demoRouter reqGetX "boom"
      ["m1"] ["a1"] [] ["r1"] [] "" (emitHandler "h")
      "nm" "ct" "ise" "isect").2.2.1 (Or.inr rfl)).1
  · exact ((panic_in_any_tier_yields_single_500 demoRouterHandlerPanics reqGetX
      "boom" ["m1"] [] [] ["r1"] ["a1"] "" (emitHandler "h")
      "nm" "ct" "ise" "isect").2.2.2 (Or.inr rfl)).1

/-! ## C1: trailing-empty-segment resolution -/

/-- The router produced by registering `GET /items/:id`. -/
def itemsRouter : RouterTable :=
  match setHandler [] "/items/:id" (emitHandler "items") "GET" [] with
  | .ok t => t
  | .error _ => []

/-- C1 counterexample: with `GET /items/:id` registered and no other
route, the request `GET /items/` (trailing empty final segment) DOES
produce a path-parameter match — the parameter is bound to the empty
string — and is not reported as "no route", contradicting the claim that
such a request never produces a path-parameter match. -/
theorem trailing_empty_segment_counterexample :
    (resolve itemsRouter "GET" "/items/").paramTable = some [("id", "")] ∧
    (resolve itemsRouter "GET" "/items/").isNoRoute = false := by
  exact ⟨by decide, by decide⟩

/-- C1 (amended): a request whose path splits into more than two segments
with an empty final segment resolves to a path-parameter match — binding
the parameter to the empty string — whenever the parameterized template
(the request path itself followed by the marker) is registered for the
method with a non-empty parameter name; it falls through to the exact
lookup only when that template is absent. -/
theorem trailing_empty_segment_param_resolution
    (router : RouterTable) (method path : String) (ru : Route)
    (h1 : (goSplit path '/').length > 2)
    (h2 : (goSplit path '/').getLastD "" = "")
    (h3 : getRoute router (path ++ ":") method = some ru)
    (h4 : ru.pathParamName ≠ "") :
    resolve router method path = .paramMatch ru [(ru.pathParamName, "")] := by
  simp only [resolve]
  rw [if_pos h1, h2, goTrimSuffix_empty, h3]
  simp [h4]

theorem trailing_empty_segment_param_resolution_witness :
    resolve itemsRouter "GET" "/items/"
      = .paramMatch ⟨emitHandler "items", "id", []⟩ [("id", "")] := by
  exact trailing_empty_segment_param_resolution itemsRouter "GET" "/items/"
    ⟨emitHandler "items", "id", []⟩ (by decide) (by decide) rfl (by decide)

/-! ## C6: duplicate route registration -/

/-- The normalized path template `setHandler` stores: the part before the
parameter marker, re-suffixed with the marker, when a marker is present;
the path itself otherwise. -/
def normalizedTemplate (path0 : String) : String :=
  let paths := goSplit path0 ':'
  if paths.length > 1 then paths.headD "" ++ ":" else path0

/-- The parameter name `setHandler` stores for a registration of `path0`. -/
def normalizedParamName (path0 : String) : String :=
  let paths := goSplit path0 ':'
  if paths.length > 1 then paths.getLastD "" else ""

/-- `setHandler` in terms of the normalized template (definitional). -/
theorem setHandler_eq (router : RouterTable) (p : String) (hr : GoHandler)
    (method : String) (mw : List GoMiddleware) :
    setHandler router p hr method mw
      = if (router.lookup (method ++ " " ++ normalizedTemplate p)).isSome then
          .error (panicSameRoot (normalizedTemplate p))
        else
          .ok ((method ++ " " ++ normalizedTemplate p,
            ⟨hr, normalizedParamName p, mw⟩) :: router) := rfl

/-- C6: two registrations whose method and normalized path template
coincide: when the template is not yet taken, the first succeeds and the
second raises the duplicate-route fault (`PanicSameRoot`) at registration
time. -/
theorem duplicate_route_registration_faults
    (router : RouterTable) (p1 p2 m : String) (hr1 hr2 : GoHandler)
    (mw1 mw2 : List GoMiddleware)
    (hkey : normalizedTemplate p1 = normalizedTemplate p2)
    (hfresh : router.lookup (m ++ " " ++ normalizedTemplate p1) = none) :
    ∃ t1, setHandler router p1 hr1 m mw1 = .ok t1 ∧
      setHandler t1 p2 hr2 m mw2
        = .error (panicSameRoot (normalizedTemplate p2)) := by
  refine ⟨(m ++ " " ++ normalizedTemplate p1,
    ⟨hr1, normalizedParamName p1, mw1⟩) :: router, ?_, ?_⟩
  · rw [setHandler_eq, hfresh]
    rfl
  · rw [setHandler_eq, ← hkey]
    have hlk : (((m ++ " " ++ normalizedTemplate p1,
        (⟨hr1, normalizedParamName p1, mw1⟩ : Route)) :: router).lookup
          (m ++ " " ++ normalizedTemplate p1)).isSome = true := by
      simp [List.lookup]
    rw [hlk]
    rfl

theorem duplicate_route_registration_faults_witness :
    ∃ t1, setHandler [] "/items/:id" (emitHandler "a") "GET" [] = .ok t1 ∧
      setHandler t1 "/items/:item" (emitHandler "b") "GET" []
        = .error (panicSameRoot (normalizedTemplate "/items/:item")) := by
  exact duplicate_route_registration_faults [] "/items/:id" "/items/:item"
    "GET" (emitHandler "a") (emitHandler "b") [] [] rfl rfl

/-! ## The decimal denotation (specification side for the numeric claims)

`denotesNatL cs n` says the character list `cs` is a base-10 numeral
(digits only, at least one, leading zeros allowed) whose value, read as a
positional number via `Nat.ofDigits`, is `n`; `denotesIntL` additionally
allows one leading sign. -/

/-- The positional base-10 value of a digit list, most significant
first. -/
def decValue (cs : List Char) : ℕ :=
  Nat.ofDigits 10 ((cs.map fun c => c.toNat - 48).reverse)

def denotesNatL (cs : List Char) (n : ℕ) : Prop :=
  cs ≠ [] ∧ (∀ c ∈ cs, c.isDigit) ∧ decValue cs = n

def denotesIntL (cs : List Char) (v : Int) : Prop :=
  (∃ n : ℕ, denotesNatL cs n ∧ v = n) ∨
  (∃ t, ∃ n : ℕ, cs = '+' :: t ∧ denotesNatL t n ∧ v = n) ∨
  (∃ t, ∃ n : ℕ, cs = '-' :: t ∧ denotesNatL t n ∧ v = -(n : Int))

theorem decValue_append_digit (l : List Char) (c : Char) :
    decValue (l ++ [c]) = 10 * decValue l + (c.toNat - 48) := by
  simp only [decValue, List.map_append, List.reverse_append]
  simp [Nat.ofDigits_cons]
  ring

theorem foldl_decDigitStep_none (cs : List Char) :
    cs.foldl decDigitStep none = none := by
  induction cs with
  | nil => rfl
  | cons c t ih => simpa [decDigitStep] using ih

theorem foldl_decDigitStep_digits (cs : List Char)
    (h : ∀ c ∈ cs, c.isDigit) (a : ℕ) :
    cs.foldl decDigitStep (some a) = some (a * 10 ^ cs.length + decValue cs) := by
  induction cs using List.reverseRecOn with
  | nil => simp [decValue, Nat.ofDigits]
  | append_singleton l c ih =>
    rw [List.foldl_append]
    rw [ih (fun x hx => h x (by simp [hx]))]
    have hc : c.isDigit := h c (by simp)
    simp only [List.foldl_cons, List.foldl_nil, decDigitStep, hc, if_true]
    rw [decValue_append_digit]
    have hlen : (l ++ [c]).length = l.length + 1 := by simp
    rw [hlen, pow_succ]
    ring

theorem foldl_decDigitStep_nondigit (cs : List Char)
    (h : ∃ c ∈ cs, ¬ c.isDigit) (a : ℕ) :
    cs.foldl decDigitStep (some a) = none := by
  induction cs generalizing a with
  | nil => simp at h
  | cons c t ih =>
    by_cases hc : c.isDigit
    · have ht : ∃ x ∈ t, ¬ x.isDigit := by
        rcases h with ⟨x, hx, hxd⟩
        rcases List.mem_cons.mp hx with hx | hx
        · subst hx; exact absurd hc hxd
        · exact ⟨x, hx, hxd⟩
      simp only [List.foldl_cons, decDigitStep, hc, if_true]
      exact ih ht _
    · simp only [List.foldl_cons, decDigitStep, hc, if_false]
      exact foldl_decDigitStep_none t

/-- The parser `decDigitsVal` computes exactly the specification-side
decimal denotation. -/
theorem decDigitsVal_eq_some (cs : List Char) (n : ℕ) :
    decDigitsVal cs = some n ↔ denotesNatL cs n := by
  constructor
  · intro h
    cases cs with
    | nil => simp [decDigitsVal] at h
    | cons c t =>
      by_cases hd : ∀ x ∈ c :: t, x.isDigit
      · have := foldl_decDigitStep_digits (c :: t) hd 0
        rw [show decDigitsVal (c :: t) = (c :: t).foldl decDigitStep (some 0)
          from rfl, this] at h
        refine ⟨by simp, hd, ?_⟩
        simpa using h
      · push_neg at hd
        obtain ⟨x, hx, hxd⟩ := hd
        have := foldl_decDigitStep_nondigit (c :: t) ⟨x, hx, by simpa using hxd⟩ 0
        rw [show decDigitsVal (c :: t) = (c :: t).foldl decDigitStep (some 0)
          from rfl, this] at h
        exact absurd h (by simp)
  · rintro ⟨hne, hd, hv⟩
    cases cs with
    | nil => exact absurd rfl hne
    | cons c t =>
      rw [show decDigitsVal (c :: t) = (c :: t).foldl decDigitStep (some 0)
        from rfl, foldl_decDigitStep_digits (c :: t) hd 0]
      simp [hv]

theorem decDigitsVal_eq_none (cs : List Char) :
    decDigitsVal cs = none ↔ ¬ ∃ n, denotesNatL cs n := by
  constructor
  · rintro h ⟨n, hn⟩
    rw [(decDigitsVal_eq_some cs n).mpr hn] at h
    cases h
  · intro h
    cases hv : decDigitsVal cs with
    | none => rfl
    | some m => exact absurd ⟨m, (decDigitsVal_eq_some cs m).mp hv⟩ h

/-- A decimal digit is not a sign character. -/
theorem isDigit_ne_sign {c : Char} (h : c.isDigit) : c ≠ '+' ∧ c ≠ '-' := by
  constructor <;> rintro rfl <;> simp [Char.isDigit] at h

/-- Reduction of the sign-aware scanner at a head character that is not a
sign. -/
theorem goSignedDecVal_cons (c : Char) (t : List Char)
    (h1 : c ≠ '+') (h2 : c ≠ '-') :
    goSignedDecVal (c :: t) = (decDigitsVal (c :: t)).map (fun n => (n : Int)) := by
  rw [goSignedDecVal.eq_def]
  split
  · simp_all
  · next heq => rw [List.cons.injEq] at heq; exact absurd heq.1 h1
  · next heq => rw [List.cons.injEq] at heq; exact absurd heq.1 h2
  · rfl

/-- The sign-aware value scanner computes exactly the signed decimal
denotation. -/
theorem goSignedDecVal_eq_some (cs : List Char) (v : Int) :
    goSignedDecVal cs = some v ↔ denotesIntL cs v := by
  constructor
  · intro h
    cases cs with
    | nil => simp [goSignedDecVal] at h
    | cons c t =>
      by_cases h1 : c = '+'
      · subst h1
        rw [show goSignedDecVal ('+' :: t)
          = (decDigitsVal t).map (fun n => (n : Int)) from rfl] at h
        cases hv : decDigitsVal t with
        | none => rw [hv] at h; cases h
        | some n =>
          rw [hv] at h
          exact Or.inr (Or.inl ⟨t, n, rfl, (decDigitsVal_eq_some t n).mp hv,
            by simpa using h.symm⟩)
      · by_cases h2 : c = '-'
        · subst h2
          rw [show goSignedDecVal ('-' :: t)
            = (decDigitsVal t).map (fun n => -(n : Int)) from rfl] at h
          cases hv : decDigitsVal t with
          | none => rw [hv] at h; cases h
          | some n =>
            rw [hv] at h
            exact Or.inr (Or.inr ⟨t, n, rfl, (decDigitsVal_eq_some t n).mp hv,
              by simpa using h.symm⟩)
        · rw [goSignedDecVal_cons c t h1 h2] at h
          cases hv : decDigitsVal (c :: t) with
          | none => rw [hv] at h; cases h
          | some n =>
            rw [hv] at h
            exact Or.inl ⟨n, (decDigitsVal_eq_some _ n).mp hv,
              by simpa using h.symm⟩
  · intro h
    rcases h with ⟨n, ⟨hne, hd, hv⟩, rfl⟩ | ⟨t, n, rfl, hn, rfl⟩ | ⟨t, n, rfl, hn, rfl⟩
    · cases cs with
      | nil => exact absurd rfl hne
      | cons c t =>
        have hc : c.isDigit := hd c (by simp)
        obtain ⟨h1, h2⟩ := isDigit_ne_sign hc
        rw [goSignedDecVal_cons c t h1 h2,
          (decDigitsVal_eq_some (c :: t) (decValue (c :: t))).mpr
            ⟨by simp, hd, rfl⟩]
        simp [hv]
    · rw [show goSignedDecVal ('+' :: t)
        = (decDigitsVal t).map (fun n => (n : Int)) from rfl,
        (decDigitsVal_eq_some t n).mpr hn]
      rfl
    · rw [show goSignedDecVal ('-' :: t)
        = (decDigitsVal t).map (fun n => -(n : Int)) from rfl,
        (decDigitsVal_eq_some t n).mpr hn]
      rfl

theorem goSignedDecVal_eq_none (cs : List Char) :
    goSignedDecVal cs = none ↔ ¬ ∃ v, denotesIntL cs v := by
  constructor
  · rintro h ⟨v, hv⟩
    rw [(goSignedDecVal_eq_some cs v).mpr hv] at h
    cases h
  · intro h
    cases hv : goSignedDecVal cs with
    | none => rfl
    | some m => exact absurd ⟨m, (goSignedDecVal_eq_some cs m).mp hv⟩ h

/-- `goParseUint` against the decimal denotation: exact success within
`2^w`, a range error at or above it, a syntax error when `s` denotes
nothing. -/
theorem goParseUint_spec (s : String) (w : ℕ) :
    (∀ n : ℕ, denotesNatL s.data n →
      (n < 2 ^ w → goParseUint s w = .ok n) ∧
      (¬ n < 2 ^ w →
        goParseUint s w = .error (.numError "ParseUint" s .errRangeKind))) ∧
    ((¬ ∃ n, denotesNatL s.data n) →
      goParseUint s w = .error (.numError "ParseUint" s .errSyntaxKind)) := by
  constructor
  · intro n hn
    have hv : decDigitsVal s.data = some n := (decDigitsVal_eq_some _ n).mpr hn
    constructor
    · intro hr
      simp only [goParseUint, hv, if_pos hr]
    · intro hr
      simp only [goParseUint, hv, if_neg hr]
  · intro hno
    have hv : decDigitsVal s.data = none := (decDigitsVal_eq_none _).mpr hno
    simp only [goParseUint, hv]

/-- `goParseIntF` against the signed decimal denotation. -/
theorem goParseIntF_spec (fn : String) (s : String) (w : ℕ) :
    (∀ v : Int, denotesIntL s.data v →
      ((-(2 ^ (w - 1) : Int) ≤ v ∧ v < (2 ^ (w - 1) : Int)) →
        goParseIntF fn s w = .ok v) ∧
      (¬ (-(2 ^ (w - 1) : Int) ≤ v ∧ v < (2 ^ (w - 1) : Int)) →
        goParseIntF fn s w = .error (.numError fn s .errRangeKind))) ∧
    ((¬ ∃ v, denotesIntL s.data v) →
      goParseIntF fn s w = .error (.numError fn s .errSyntaxKind)) := by
  constructor
  · intro v hv
    have hs : goSignedDecVal s.data = some v := (goSignedDecVal_eq_some _ v).mpr hv
    constructor
    · intro hr
      simp only [goParseIntF, hs, if_pos hr]
    · intro hr
      simp only [goParseIntF, hs, if_neg hr]
  · intro hno
    have hs : goSignedDecVal s.data = none := (goSignedDecVal_eq_none _).mpr hno
    simp only [goParseIntF, hs]

/-! ## C8: exact-width integer coercion -/

/-- The signedness and exact bit width the coercion engine uses for each
built-in integer target (`int`/`uint` are the 64-bit platform types). -/
def intSpec : BaseTy → Option (Bool × ℕ)
  | .int => some (true, 64)
  | .int8 => some (true, 8)
  | .int16 => some (true, 16)
  | .int32 => some (true, 32)
  | .int64 => some (true, 64)
  | .uint => some (false, 64)
  | .uint8 => some (false, 8)
  | .uint16 => some (false, 16)
  | .uint32 => some (false, 32)
  | .uint64 => some (false, 64)
  | _ => none

/-- The integer a stored value carries, if any. -/
def GoVal.intVal : GoVal → Option Int
  | .vint n => some n
  | .vuint n => some (n : Int)
  | _ => none

/-- `v` lies in the exact range of a `w`-bit (un)signed integer. -/
def intInRange (signed : Bool) (w : ℕ) (v : Int) : Prop :=
  if signed then -(2 ^ (w - 1) : Int) ≤ v ∧ v < (2 ^ (w - 1) : Int)
  else 0 ≤ v ∧ v < (2 ^ w : Int)

/-- `s` denotes `v` as a decimal numeral, in the syntax admissible for the
signedness: digits only when unsigned, an optional leading sign when
signed. -/
def denotesDec (signed : Bool) (cs : List Char) (v : Int) : Prop :=
  if signed then denotesIntL cs v else ∃ n : ℕ, denotesNatL cs n ∧ v = n

/-- The unsigned half of the coercion engine: any case of the type switch
that delegates to `goParseUint s w` and stores the parsed value. -/
theorem setStr_unsigned_spec (base : BaseTy) (isPtr : Bool) (w : ℕ)
    (s : String)
    (hdef : setStrToStructField ⟨base, isPtr⟩ s
      = (goParseUint s w).map (fun v => storeVal ⟨base, isPtr⟩ (.vuint v))) :
    (∀ v : Int, (∃ n : ℕ, denotesNatL s.data n ∧ v = n) →
      ((0 ≤ v ∧ v < (2 ^ w : Int)) →
        ∃ g, setStrToStructField ⟨base, isPtr⟩ s
          = .ok (storeVal ⟨base, isPtr⟩ g) ∧ g.intVal = some v) ∧
      (¬ (0 ≤ v ∧ v < (2 ^ w : Int)) →
        ∃ fn, setStrToStructField ⟨base, isPtr⟩ s
          = .error (.numError fn s .errRangeKind))) ∧
    ((¬ ∃ v : Int, ∃ n : ℕ, denotesNatL s.data n ∧ v = n) →
      ∃ fn, setStrToStructField ⟨base, isPtr⟩ s
        = .error (.numError fn s .errSyntaxKind)) := by
  obtain ⟨hok, hsyn⟩ := goParseUint_spec s w
  constructor
  · rintro v ⟨n, hn, rfl⟩
    obtain ⟨hin, hout⟩ := hok n hn
    constructor
    · intro hr
      have hlt : n < 2 ^ w := by exact_mod_cast hr.2
      refine ⟨.vuint n, ?_, rfl⟩
      rw [hdef, hin hlt]
      rfl
    · intro hr
      have hge : ¬ n < 2 ^ w := by
        intro hlt
        exact hr ⟨by positivity, by exact_mod_cast hlt⟩
      refine ⟨"ParseUint", ?_⟩
      rw [hdef, hout hge]
      rfl
  · intro hno
    refine ⟨"ParseUint", ?_⟩
    have hnone : ¬ ∃ n, denotesNatL s.data n := by
      rintro ⟨n, hn⟩
      exact hno ⟨n, n, hn, rfl⟩
    rw [hdef, hsyn hnone]
    rfl

/-- The signed half of the coercion engine: any case of the type switch
that delegates to `goParseIntF fn s w` and stores the parsed value. -/
theorem setStr_signed_spec (base : BaseTy) (isPtr : Bool) (fn : String)
    (w : ℕ) (s : String)
    (hdef : setStrToStructField ⟨base, isPtr⟩ s
      = (goParseIntF fn s w).map (fun v => storeVal ⟨base, isPtr⟩ (.vint v))) :
    (∀ v : Int, denotesIntL s.data v →
      ((-(2 ^ (w - 1) : Int) ≤ v ∧ v < (2 ^ (w - 1) : Int)) →
        ∃ g, setStrToStructField ⟨base, isPtr⟩ s
          = .ok (storeVal ⟨base, isPtr⟩ g) ∧ g.intVal = some v) ∧
      (¬ (-(2 ^ (w - 1) : Int) ≤ v ∧ v < (2 ^ (w - 1) : Int)) →
        ∃ fn2, setStrToStructField ⟨base, isPtr⟩ s
          = .error (.numError fn2 s .errRangeKind))) ∧
    ((¬ ∃ v, denotesIntL s.data v) →
      ∃ fn2, setStrToStructField ⟨base, isPtr⟩ s
        = .error (.numError fn2 s .errSyntaxKind)) := by
  obtain ⟨hok, hsyn⟩ := goParseIntF_spec fn s w
  constructor
  · intro v hv
    obtain ⟨hin, hout⟩ := hok v hv
    constructor
    · intro hr
      refine ⟨.vint v, ?_, rfl⟩
      rw [hdef, hin hr]
      rfl
    · intro hr
      refine ⟨fn, ?_⟩
      rw [hdef, hout hr]
      rfl
  · intro hno
    refine ⟨fn, ?_⟩
    rw [hdef, hsyn hno]
    rfl

/-- C8: for every built-in integer target type of the coercion engine and
every decimal string: a denoted value inside the type's exact range is
stored verbatim (round-trip); a denoted value outside the range fails with
the underlying `strconv` range error; a string denoting nothing fails with
the underlying `strconv` syntax error — the library error is returned
as-is, not swallowed. -/
theorem integer_coercion_exact_width (t : FType) (sgn : Bool) (w : ℕ)
    (s : String) (hspec : intSpec t.base = some (sgn, w)) :
    (∀ v : Int, denotesDec sgn s.data v →
      (intInRange sgn w v →
        ∃ g, setStrToStructField t s = .ok (storeVal t g) ∧ g.intVal = some v) ∧
      (¬ intInRange sgn w v →
        ∃ fn, setStrToStructField t s
          = .error (.numError fn s .errRangeKind))) ∧
    ((¬ ∃ v, denotesDec sgn s.data v) →
      ∃ fn, setStrToStructField t s
        = .error (.numError fn s .errSyntaxKind)) := by
  obtain ⟨base, isPtr⟩ := t
  cases base with
  | int =>
    obtain ⟨rfl, rfl⟩ : sgn = true ∧ w = 64 := by simpa [intSpec] using hspec.symm
    simpa [denotesDec, intInRange] using
      setStr_signed_spec .int isPtr "Atoi" 64 s rfl
  | int8 =>
    obtain ⟨rfl, rfl⟩ : sgn = true ∧ w = 8 := by simpa [intSpec] using hspec.symm
    simpa [denotesDec, intInRange] using
      setStr_signed_spec .int8 isPtr "ParseInt" 8 s rfl
  | int16 =>
    obtain ⟨rfl, rfl⟩ : sgn = true ∧ w = 16 := by simpa [intSpec] using hspec.symm
    simpa [denotesDec, intInRange] using
      setStr_signed_spec .int16 isPtr "ParseInt" 16 s rfl
  | int32 =>
    obtain ⟨rfl, rfl⟩ : sgn = true ∧ w = 32 := by simpa [intSpec] using hspec.symm
    simpa [denotesDec, intInRange] using
      setStr_signed_spec .int32 isPtr "ParseInt" 32 s rfl
  | int64 =>
    obtain ⟨rfl, rfl⟩ : sgn = true ∧ w = 64 := by simpa [intSpec] using hspec.symm
    simpa [denotesDec, intInRange] using
      setStr_signed_spec .int64 isPtr "ParseInt" 64 s rfl
  | uint =>
    obtain ⟨rfl, rfl⟩ : sgn = false ∧ w = 64 := by simpa [intSpec] using hspec.symm
    simpa [denotesDec, intInRange] using
      setStr_unsigned_spec .uint isPtr 64 s rfl
  | uint8 =>
    obtain ⟨rfl, rfl⟩ : sgn = false ∧ w = 8 := by simpa [intSpec] using hspec.symm
    simpa [denotesDec, intInRange] using
      setStr_unsigned_spec .uint8 isPtr 8 s rfl
  | uint16 =>
    obtain ⟨rfl, rfl⟩ : sgn = false ∧ w = 16 := by simpa [intSpec] using hspec.symm
    simpa [denotesDec, intInRange] using
      setStr_unsigned_spec .uint16 isPtr 16 s rfl
  | uint32 =>
    obtain ⟨rfl, rfl⟩ : sgn = false ∧ w = 32 := by simpa [intSpec] using hspec.symm
    simpa [denotesDec, intInRange] using
      setStr_unsigned_spec .uint32 isPtr 32 s rfl
  | uint64 =>
    obtain ⟨rfl, rfl⟩ : sgn = false ∧ w = 64 := by simpa [intSpec] using hspec.symm
    simpa [denotesDec, intInRange] using
      setStr_unsigned_spec .uint64 isPtr 64 s rfl
  | str => simp [intSpec] at hspec
  | bool => simp [intSpec] at hspec

theorem integer_coercion_exact_width_witness :
    (∃ g, setStrToStructField ⟨.uint8, false⟩ "250"
      = .ok (storeVal ⟨.uint8, false⟩ g) ∧ g.intVal = some 250) ∧
    (∃ fn, setStrToStructField ⟨.uint8, false⟩ "256"
      = .error (.numError fn "256" .errRangeKind)) ∧
    (∃ fn, setStrToStructField ⟨.int8, true⟩ "abc"
      = .error (.numError fn "abc" .errSyntaxKind)) := by
  refine ⟨?_, ?_, ?_⟩
  · exact ((integer_coercion_exact_width ⟨.uint8, false⟩ false 8 "250" rfl).1
      250 ⟨250, (decDigitsVal_eq_some _ 250).mp (by decide), rfl⟩).1
      (by norm_num [intInRange])
  · exact ((integer_coercion_exact_width ⟨.uint8, false⟩ false 8 "256" rfl).1
      256 ⟨256, (decDigitsVal_eq_some _ 256).mp (by decide), rfl⟩).2
      (by norm_num [intInRange])
  · exact (integer_coercion_exact_width ⟨.int8, true⟩ true 8 "abc" rfl).2
      (by
        rintro ⟨v, hv⟩
        have := (goSignedDecVal_eq_some "abc".data v).mpr
          (by simpa [denotesDec] using hv)
        rw [show goSignedDecVal "abc".data = none from by decide] at this
        cases this)

/-! ## C9: plain-string and pointer-to-string coercion agree -/

/-- C9: coercing a non-empty raw token into a `string` field and into a
`*string` field stores the same underlying string — the raw token,
verbatim — including tokens that begin and end with a double-quote
character. -/
theorem string_and_ptr_string_coerce_same (s : String) (hs : s ≠ "") :
    setStrToStructField ⟨.str, false⟩ s = .ok (.direct (.vstr s)) ∧
    setStrToStructField ⟨.str, true⟩ s = .ok (.pointer (.vstr s)) ∧
    (FSlot.direct (.vstr s)).stored = (FSlot.pointer (.vstr s)).stored := by
  exact ⟨rfl, rfl, rfl⟩

theorem string_and_ptr_string_coerce_same_witness :
    setStrToStructField ⟨.str, false⟩ "\"abc\"" = .ok (.direct (.vstr "\"abc\"")) ∧
    setStrToStructField ⟨.str, true⟩ "\"abc\"" = .ok (.pointer (.vstr "\"abc\"")) ∧
    (FSlot.direct (.vstr "\"abc\"")).stored
      = (FSlot.pointer (.vstr "\"abc\"")).stored := by
  exact string_and_ptr_string_coerce_same "\"abc\"" (by decide)

/-! ## C2: a present-but-empty query parameter is still coerced -/

/-- A request carrying the query string `?q=`: the parameter `q` is
present with the empty value. -/
def emptyQueryReq : Request := ⟨"GET", "/x", [("q", [""])], "", none, none⟩

/-- A single-field bindable target whose field is tagged `query:"q"`. -/
def qField (t : FType) : FieldDesc := ⟨"", "", "q", "", t⟩

/-- How `Bind` on `emptyQueryReq` reduces: the empty token reaches the
coercion engine (definitional). -/
theorem bind_emptyQueryReq_eq (t : FType)
    (um : String → List FSlot → Except GoError (List FSlot)) :
    Bind emptyQueryReq [qField t] [zeroSlot t] um
      = match setStrToStructField t "" with
        | .error e =>
          .err (.errBind (.errRequestFieldFormat "q" e))
            { emptyQueryReq with body := some "" }
        | .ok v => .ok [v] { emptyQueryReq with body := some "" } := rfl

/-- C2: a query parameter that is present in the URL but empty is passed
to coercion as the empty string: a `string`-typed field is set to `""`
and `Bind` succeeds; any non-string field fails, and `Bind` returns a
`BindError` wrapping a `FieldFormatError` for that field. -/
theorem bind_coerces_present_empty_query (t : FType)
    (um : String → List FSlot → Except GoError (List FSlot)) :
    (t.base = .str →
      Bind emptyQueryReq [qField t] [zeroSlot t] um
        = .ok [storeVal t (.vstr "")] { emptyQueryReq with body := some "" }) ∧
    (t.base ≠ .str →
      ∃ e, Bind emptyQueryReq [qField t] [zeroSlot t] um
        = .err (.errBind (.errRequestFieldFormat "q" e))
          { emptyQueryReq with body := some "" }) := by
  obtain ⟨base, isPtr⟩ := t
  constructor
  · intro hb
    cases hb
    rw [bind_emptyQueryReq_eq]
    rfl
  · intro hb
    rw [bind_emptyQueryReq_eq]
    cases base with
    | str => exact absurd rfl hb
    | int => exact ⟨_, rfl⟩
    | uint => exact ⟨_, rfl⟩
    | bool => exact ⟨_, rfl⟩
    | int8 => exact ⟨_, rfl⟩
    | int16 => exact ⟨_, rfl⟩
    | int32 => exact ⟨_, rfl⟩
    | int64 => exact ⟨_, rfl⟩
    | uint8 => exact ⟨_, rfl⟩
    | uint16 => exact ⟨_, rfl⟩
    | uint32 => exact ⟨_, rfl⟩
    | uint64 => exact ⟨_, rfl⟩

theorem bind_coerces_present_empty_query_witness :
    Bind emptyQueryReq [qField ⟨.str, false⟩] [zeroSlot ⟨.str, false⟩]
        (fun _ s => .ok s)
      = .ok [.direct (.vstr "")] { emptyQueryReq with body := some "" } ∧
    ∃ e, Bind emptyQueryReq [qField ⟨.int, false⟩] [zeroSlot ⟨.int, false⟩]
        (fun _ s => .ok s)
      = .err (.errBind (.errRequestFieldFormat "q" e))
        { emptyQueryReq with body := some "" } := by
  exact ⟨(bind_coerces_present_empty_query ⟨.str, false⟩ (fun _ s => .ok s)).1 rfl,
    (bind_coerces_present_empty_query ⟨.int, false⟩ (fun _ s => .ok s)).2
      (by decide)⟩

/-! ## C10: a `param`-tagged field without the path-parameter table -/

/-- A request that was not dispatched through a parameterized route: no
`pathParam` table in its context. -/
def noTableReq : Request := ⟨"GET", "/x", [], "", none, none⟩

/-- A single-field bindable target whose field is tagged `param:"id"`. -/
def idField (t : FType) : FieldDesc := ⟨"", "id", "", "", t⟩

/-- C10: calling `Bind` with a `param`-tagged field on a request whose
context has no path-parameter table panics (`"pathParam "`), rather than
returning an error; with the table present — whatever it contains — the
same call never panics: the table is exactly the precondition for a
non-panicking `Bind` on a `param`-tagged target. -/
theorem bind_param_requires_table (t : FType)
    (um : String → List FSlot → Except GoError (List FSlot)) :
    Bind noTableReq [idField t] [zeroSlot t] um
      = .panicked "pathParam " { noTableReq with body := some "" } ∧
    (∀ table, (Bind { noTableReq with ctxPathParam := some table }
        [idField t] [zeroSlot t] um).isPanic = false) := by
  constructor
  · rfl
  · intro table
    have h0 : Bind { noTableReq with ctxPathParam := some table }
        [idField t] [zeroSlot t] um
        = bindFields ⟨"GET", "/x", [], "", some "", some table⟩ [] false
            [idField t] [zeroSlot t] := rfl
    have hsel : selectFieldValue ⟨"GET", "/x", [], "", some "", some table⟩ []
        false (idField t)
        = .ok (if ((table.lookup "id").getD "") ≠ ""
            then some ((table.lookup "id").getD "") else none, "id") := rfl
    rw [h0]
    by_cases hval : ((table.lookup "id").getD "") ≠ ""
    · rw [bindFields_cons_select_some _ _ _ _ _ _ _ _ _ (by simp [idField])
        (by rw [hsel, if_pos hval])]
      cases setStrToStructField (idField t).ftype ((table.lookup "id").getD "") with
      | error e => rfl
      | ok ns => rfl
    · rw [bindFields_cons_select_none _ _ _ _ _ _ _ _ (by simp [idField])
        (by rw [hsel, if_neg hval])]
      rfl

theorem bind_param_requires_table_witness :
    Bind noTableReq [idField ⟨.int, false⟩] [zeroSlot ⟨.int, false⟩]
        (fun _ s => .ok s)
      = .panicked "pathParam " { noTableReq with body := some "" } ∧
    (Bind { noTableReq with ctxPathParam := some [("id", "7")] }
        [idField ⟨.int, false⟩] [zeroSlot ⟨.int, false⟩]
        (fun _ s => .ok s)).isPanic = false := by
  exact ⟨(bind_param_requires_table ⟨.int, false⟩ (fun _ s => .ok s)).1,
    (bind_param_requires_table ⟨.int, false⟩ (fun _ s => .ok s)).2 [("id", "7")]⟩

/-! ## C4: the body remains readable after `Bind` -/

theorem ioReaderToString_some (s : String) : ioReaderToString (some s) = s := rfl

/-- The per-field loop never touches the request it was given. -/
theorem bindFields_request (r : Request) (form : List (String × List String))
    (isF : Bool) :
    ∀ fds slots, (bindFields r form isF fds slots).request = r := by
  intro fds
  induction fds with
  | nil => intro slots; rfl
  | cons fd fds ih =>
    intro slots
    cases slots with
    | nil => rfl
    | cons slot slots =>
      have hcont : ∀ ns : FSlot,
          (bindFieldsCont ns (bindFields r form isF fds slots)).request = r := by
        intro ns
        have hres := ih slots
        revert hres
        generalize bindFields r form isF fds slots = res
        intro hres
        cases res <;> exact hres
      rw [bindFields]
      by_cases hj : fd.jsonTag ≠ ""
      · rw [if_pos hj]
        exact hcont slot
      · rw [if_neg hj]
        cases hsel : selectFieldValue r form isF fd with
        | error s =>
          cases s with
          | inl msg => rfl
          | inr e => rfl
        | ok p =>
          obtain ⟨fv, fieldName⟩ := p
          cases fv with
          | none => exact hcont slot
          | some v =>
            show (match setStrToStructField fd.ftype v with
              | Except.error e =>
                BindResult.err
                  (wrapByErrBind (GoError.errRequestFieldFormat fieldName e)) r
              | Except.ok newSlot =>
                bindFieldsCont newSlot (bindFields r form isF fds slots)).request
              = r
            cases setStrToStructField fd.ftype v with
            | error e => rfl
            | ok ns => exact hcont ns

/-- The post-body phase leaves the request untouched whenever `ParseForm`
does not read the body: always for non-form requests, and for form
requests whose method is not `POST`/`PUT`/`PATCH`. -/
theorem bindAfterBody_request (r' : Request) (fields : List FieldDesc)
    (ab : Except GoError (List FSlot))
    (h : isFormRequest r' = false ∨
      (r'.method ≠ "POST" ∧ r'.method ≠ "PUT" ∧ r'.method ≠ "PATCH")) :
    (bindAfterBody r' fields ab).request = r' := by
  cases ab with
  | error e => rfl
  | ok slots2 =>
    rw [bindAfterBody]
    by_cases hf : isFormRequest r' = true
    · simp only [hf, if_true]
      rw [goParseForm]
      have hm : ¬ (r'.method = "POST" ∨ r'.method = "PUT" ∨ r'.method = "PATCH") := by
        rcases h with h | h
        · rw [h] at hf; cases hf
        · rintro (hh | hh | hh) <;> simp_all
      rw [if_neg hm]
      exact bindFields_request r' r'.query true fields slots2
    · have hf2 : isFormRequest r' = false := by
        cases hfv : isFormRequest r'
        · rfl
        · exact absurd hfv hf
      simp only [hf2]
      exact bindFields_request r' [] false fields slots2

/-- C4 (amended): for every request that is not a form-encoded
`POST`/`PUT`/`PATCH`, the request `Bind` leaves behind still yields the
original body bytes when read again — `Bind` re-buffers what it consumed.
(The exception, forced by `ParseForm`: on a form-encoded
`POST`/`PUT`/`PATCH`, `ParseForm` reads the re-buffered body, so a second
read yields the empty string; see the counterexample.) -/
theorem bind_leaves_body_readable (r : Request) (fields : List FieldDesc)
    (slots : List FSlot)
    (um : String → List FSlot → Except GoError (List FSlot))
    (h : isFormRequest r = false ∨
      (r.method ≠ "POST" ∧ r.method ≠ "PUT" ∧ r.method ≠ "PATCH")) :
    ioReaderToString (Bind r fields slots um).request.body
      = ioReaderToString r.body := by
  simp only [Bind]
  split
  · rfl
  · rw [bindAfterBody_request]
    · rfl
    · rcases h with h | h
      · exact Or.inl h
      · exact Or.inr h

def formPostReq : Request :=
  ⟨"POST", "/x", [], "application/x-www-form-urlencoded", some "a=1", none⟩

/-- C4 counterexample: on a form-encoded `POST` whose body is `a=1`,
`Bind` succeeds but `ParseForm` has consumed the re-buffered body: reading
it again yields `""`, not the original bytes — the claim fails as stated
for every request. -/
theorem bind_leaves_body_readable_counterexample :
    ioReaderToString formPostReq.body = "a=1" ∧
    ioReaderToString (Bind formPostReq [] [] (fun _ s => .ok s)).request.body
      = "" := by
  exact ⟨rfl, by decide⟩

/-! ## C7: classification of body-decode failures -/

/-- Every error is in its own unwrap chain. -/
theorem errorChain_self (e : GoError) : e ∈ errorChain e := by
  cases e <;> simp [errorChain]

theorem isFormRequest_set_body (r : Request) (b : Option String) :
    isFormRequest { r with body := b } = isFormRequest r := rfl

/-- C7: for a non-empty (non-form) body, a decode failure is classified by
inspecting the error chain, exactly as the source does: a chain containing
a `*json.SyntaxError` yields `BindError` wrapping
`ErrRequestJsonSyntaxError` carrying the raw body; otherwise a chain
containing a `*json.UnmarshalTypeError` yields `BindError` wrapping
`ErrRequestFieldFormat` naming that error's field; any other failure
yields `BindError` wrapping `ErrRequestJsonSomethingInvalid` carrying the
raw body.  In each case the decoder's error is reachable from the
returned error by standard unwrap chaining. -/
theorem bind_classifies_body_decode_errors (r : Request)
    (fields : List FieldDesc) (slots : List FSlot)
    (um : String → List FSlot → Except GoError (List FSlot)) (e : GoError)
    (hct : r.contentType = "" ∨ r.contentType = "application/json")
    (hbody : ioReaderToString r.body ≠ "")
    (hum : um (ioReaderToString r.body) slots = .error e) :
    (chainHasJsonSyntaxError e = true →
      Bind r fields slots um
        = .err (.errBind (.errRequestJsonSyntaxError (ioReaderToString r.body) e))
            { r with body := some (ioReaderToString r.body) } ∧
      e ∈ errorChain
        (.errBind (.errRequestJsonSyntaxError (ioReaderToString r.body) e))) ∧
    (chainHasJsonSyntaxError e = false →
      ∀ f, chainTypeErrorField e = some f →
      Bind r fields slots um
        = .err (.errBind (.errRequestFieldFormat f e))
            { r with body := some (ioReaderToString r.body) } ∧
      e ∈ errorChain (.errBind (.errRequestFieldFormat f e))) ∧
    (chainHasJsonSyntaxError e = false → chainTypeErrorField e = none →
      Bind r fields slots um
        = .err (.errBind (.errRequestJsonSomethingInvalid (ioReaderToString r.body) e))
            { r with body := some (ioReaderToString r.body) } ∧
      e ∈ errorChain
        (.errBind (.errRequestJsonSomethingInvalid (ioReaderToString r.body) e))) := by
  have hform : isFormRequest r = false := by
    rcases hct with hc | hc <;> rw [isFormRequest, hc] <;> decide
  have hgate : ¬ (r.contentType ≠ "" ∧ ¬ isFormRequest r ∧
      ¬ goStartsWith r.contentType "application/json") := by
    rcases hct with hc | hc <;> rw [hc]
    · simp
    · intro hcontra
      exact hcontra.2.2 (by decide)
  have hnf : ¬ isFormRequest { r with body := some (ioReaderToString r.body) } := by
    rw [isFormRequest_set_body, hform]
    simp
  refine ⟨?_, ?_, ?_⟩
  · intro hsyn
    constructor
    · simp only [Bind]
      rw [if_neg hgate, if_pos ⟨hbody, hnf⟩, hum]
      simp only [hsyn]
      rfl
    · simp [errorChain, errorChain_self]
  · intro hsyn f hf
    constructor
    · simp only [Bind]
      rw [if_neg hgate, if_pos ⟨hbody, hnf⟩, hum]
      simp only [hsyn, hf]
      rfl
    · simp [errorChain, errorChain_self]
  · intro hsyn hf
    constructor
    · simp only [Bind]
      rw [if_neg hgate, if_pos ⟨hbody, hnf⟩, hum]
      simp only [hsyn, hf]
      rfl
    · simp [errorChain, errorChain_self]

def jsonPostReq : Request :=
  ⟨"POST", "/x", [], "application/json", some "notjson", none⟩

theorem bind_leaves_body_readable_witness :
    ioReaderToString (Bind jsonPostReq [] [] (fun _ s => .ok s)).request.body
      = ioReaderToString jsonPostReq.body := by
  exact bind_leaves_body_readable jsonPostReq [] [] (fun _ s => .ok s)
    (Or.inl rfl)

theorem bind_classifies_body_decode_errors_witness :
    (Bind jsonPostReq [] []
        (fun _ _ => .error (.jsonSyntaxError "unexpected end"))
      = .err (.errBind (.errRequestJsonSyntaxError "notjson"
          (.jsonSyntaxError "unexpected end")))
        { jsonPostReq with body := some "notjson" } ∧
      (GoError.jsonSyntaxError "unexpected end") ∈ errorChain
        (.errBind (.errRequestJsonSyntaxError "notjson"
          (.jsonSyntaxError "unexpected end")))) ∧
    (Bind jsonPostReq [] []
        (fun _ _ => .error (.jsonUnmarshalTypeError "f"))
      = .err (.errBind (.errRequestFieldFormat "f"
          (.jsonUnmarshalTypeError "f")))
        { jsonPostReq with body := some "notjson" } ∧
      (GoError.jsonUnmarshalTypeError "f") ∈ errorChain
        (.errBind (.errRequestFieldFormat "f" (.jsonUnmarshalTypeError "f")))) ∧
    (Bind jsonPostReq [] [] (fun _ _ => .error (.otherLeafError "custom"))
      = .err (.errBind (.errRequestJsonSomethingInvalid "notjson"
          (.otherLeafError "custom")))
        { jsonPostReq with body := some "notjson" } ∧
      (GoError.otherLeafError "custom") ∈ errorChain
        (.errBind (.errRequestJsonSomethingInvalid "notjson"
          (.otherLeafError "custom")))) := by
  refine ⟨?_, ?_, ?_⟩
  · exact (bind_classifies_body_decode_errors jsonPostReq [] []
      (fun _ _ => .error (.jsonSyntaxError "unexpected end"))
      (.jsonSyntaxError "unexpected end") (Or.inr rfl) (by decide) rfl).1 rfl
  · exact (bind_classifies_body_decode_errors jsonPostReq [] []
      (fun _ _ => .error (.jsonUnmarshalTypeError "f"))
      (.jsonUnmarshalTypeError "f") (Or.inr rfl) (by decide) rfl).2.1 rfl "f" rfl
  · exact (bind_classifies_body_decode_errors jsonPostReq [] []
      (fun _ _ => .error (.otherLeafError "custom"))
      (.otherLeafError "custom") (Or.inr rfl) (by decide) rfl).2.2 rfl rfl

end SimpleServer
